import Mathlib

/-!
# Verification of the permit-comments extraction engine

Shallow embedding of `extract_comments.ts` (the document-to-structured-record
parser for Fort Worth permit "Conditions/Comments" text files) and proofs of
the specification's claims about it.

Modelling conventions:
* JS strings are `String` / `List Char`; JS numbers are `JQ`, an exact
  rational type defined below (all arithmetic the claims touch is exact at
  this precision); JS `null` is `Option.none`.
* Each JS regular expression is compiled to a deterministic matcher over
  `List Char` that realizes the regex's leftmost-match backtracking
  semantics (greedy/lazy quantifiers, optional groups, case-insensitive
  flags).  The generic combinators `greedy0`, `lazy0`, `tryWS` implement
  star/plus with full backtracking into the continuation, so the compiled
  matchers agree with the JS engine on every input.
* `\s` is modelled as the ASCII whitespace characters (the documents are
  ASCII text produced by `pdftotext`).
-/

namespace Permit

abbrev Chars := List Char

/-- JS `\s` restricted to ASCII: space, tab, LF, CR, VT, FF. -/
def isWS (c : Char) : Bool :=
  c = ' ' || c = '\t' || c = '\n' || c = '\r' || c = '\x0b' || c = '\x0c'

/-- ASCII lowercasing, as used by the regex `i` flag and `toLowerCase()`. -/
def lowerC (c : Char) : Char :=
  if 'A' ≤ c && c ≤ 'Z' then Char.ofNat (c.toNat + 32) else c

def lowerStr (s : String) : String := String.mk (s.data.map lowerC)

def isAlphaC (c : Char) : Bool :=
  ('A' ≤ c && c ≤ 'Z') || ('a' ≤ c && c ≤ 'z')

def digitVal (c : Char) : ℕ := c.toNat - 48

/-- Value of a digit string read in base 10 (JS `parseInt` on an all-digit
capture). -/
def natOfDigits (l : Chars) : ℕ := l.foldl (fun a c => 10 * a + digitVal c) 0

/-- Exact rational numbers in lowest terms with a positive denominator: the
model of the JS numbers this parser computes (all of its arithmetic is exact
at this precision).  Defined from scratch so that every operation reduces
inside the kernel, letting concrete runs of the parser be checked by
`decide`. -/
structure JQ where
  num : Int
  den : Nat
deriving DecidableEq, Repr

/-- Normalize `n / d` (`d ≠ 0` at every use site) to lowest terms. -/
def JQ.norm (n : Int) (d : Nat) : JQ :=
  let g := Nat.gcd n.natAbs d
  ⟨n / (g : Int), d / g⟩

def JQ.ofN (n : ℕ) : JQ := ⟨(n : Int), 1⟩

instance (n : ℕ) : OfNat JQ n := ⟨JQ.ofN n⟩

def JQ.add (a b : JQ) : JQ :=
  JQ.norm (a.num * (b.den : Int) + b.num * (a.den : Int)) (a.den * b.den)

def JQ.neg (a : JQ) : JQ := ⟨-a.num, a.den⟩

/-- Division by a positive natural. -/
def JQ.divN (a : JQ) (n : ℕ) : JQ := JQ.norm a.num (a.den * n)

/-- Multiplication by a natural. -/
def JQ.mulN (a : JQ) (n : ℕ) : JQ := JQ.norm (a.num * (n : Int)) a.den

/-- Value of the fractional digits after a decimal point. -/
def fracOfDigits (l : Chars) : JQ := JQ.norm (natOfDigits l : Int) (10 ^ l.length)

/-- JS `Math.round` (half goes up): `⌊q + 1/2⌋`, computed as
`⌊(2·num + den) / (2·den)⌋` with flooring integer division. -/
def jsRound (q : JQ) : Int := Int.fdiv (2 * q.num + (q.den : Int)) (2 * (q.den : Int))

/-- The `Math.round(x * 100) / 100` — round to two decimal places. -/
def round2 (q : JQ) : JQ := JQ.norm (jsRound (q.mulN 100)) 100

/-- The `text.replace(/\s+/g, " ")`: collapse every whitespace run to one space. -/
def collapseWS : Chars → Chars
  | [] => []
  | c :: cs =>
    let r := collapseWS cs
    if isWS c then
      match r with
      | ' ' :: _ => r
      | _ => ' ' :: r
    else c :: r

/-- The `cleanText` from the source: collapse whitespace runs, then trim. -/
def cleanText (l : Chars) : Chars :=
  (((collapseWS l).dropWhile (· = ' ')).reverse.dropWhile (· = ' ')).reverse

def cleanTextS (s : String) : String := String.mk (cleanText s.data)

/-- The `s || null` on an already-cleaned string: empty becomes `null`. -/
def orNull (s : String) : Option String := if s.data = [] then none else some s

-- ===========================================================================
-- Matching combinators (compiled regex building blocks)
-- ===========================================================================

/-- Greedy `cls*` followed by continuation `k`, with full backtracking: the
longest consumable run whose continuation succeeds wins.  Returns the
consumed run together with the continuation's result. -/
def greedy0 {β : Type} (cls : Char → Bool) (k : Chars → Option β) :
    Chars → Option (Chars × β)
  | [] => (k []).map ((([] : Chars), ·))
  | c :: cs =>
    if cls c then
      match greedy0 cls k cs with
      | some (cap, b) => some (c :: cap, b)
      | none => (k (c :: cs)).map ((([] : Chars), ·))
    else (k (c :: cs)).map ((([] : Chars), ·))

/-- Greedy `cls+` followed by continuation `k` (at least one character). -/
def greedy1 {β : Type} (cls : Char → Bool) (k : Chars → Option β) :
    Chars → Option (Chars × β)
  | [] => none
  | c :: cs =>
    if cls c then (greedy0 cls k cs).map (fun p => (c :: p.1, p.2)) else none

/-- Lazy `cls*?` followed by continuation `k`: the shortest consumable run
whose continuation succeeds wins. -/
def lazy0 {β : Type} (cls : Char → Bool) (k : Chars → Option β) :
    Chars → Option (Chars × β)
  | [] => (k []).map ((([] : Chars), ·))
  | c :: cs =>
    match k (c :: cs) with
    | some b => some ([], b)
    | none =>
      if cls c then (lazy0 cls k cs).map (fun p => (c :: p.1, p.2)) else none

/-- Lazy `cls+?` followed by continuation `k`. -/
def lazy1 {β : Type} (cls : Char → Bool) (k : Chars → Option β) :
    Chars → Option (Chars × β)
  | [] => none
  | c :: cs =>
    if cls c then (lazy0 cls k cs).map (fun p => (c :: p.1, p.2)) else none

/-- Consume the literal `pat` case-insensitively (regex `i` flag); returns the
rest of the input on success. -/
def stripCI : Chars → Chars → Option Chars
  | [], l => some l
  | _ :: _, [] => none
  | p :: ps, c :: cs => if lowerC c = lowerC p then stripCI ps cs else none

/-- Consume the literal `pat` exactly. -/
def stripLit : Chars → Chars → Option Chars
  | [], l => some l
  | _ :: _, [] => none
  | p :: ps, c :: cs => if c = p then stripLit ps cs else none

/-- Leftmost-match search: try the compiled matcher at every start position
(left to right), as the JS engine does for an unanchored regex. -/
def searchFrom {α : Type} (p : Chars → Option α) : Chars → Option α
  | [] => p []
  | c :: cs =>
    match p (c :: cs) with
    | some a => some a
    | none => searchFrom p cs

/-- The `isPrefixCI pat l`: `pat` matches at the start of `l` case-insensitively. -/
def isPrefixCI (pat : Chars) (l : Chars) : Bool := (stripCI pat l).isSome

/-- The `containsCI pat l`: the literal `pat` occurs somewhere in `l`,
case-insensitively (the condition for an `i`-flagged literal regex to
match). -/
def containsCI (pat : Chars) (l : Chars) : Bool := l.tails.any (isPrefixCI pat)

-- ===========================================================================
-- Value normalizers (§4.4 of the spec)
-- ===========================================================================

/-- Greedy capture of the token `\d+(?:\.\d+)?` at the current position:
returns (captured characters, rest).  Maximal munch is exact here because in
every use site the characters following the token cannot begin with a digit
or with `.` followed by a digit. -/
def numCapture (l : Chars) : Option (Chars × Chars) :=
  let ds := l.takeWhile Char.isDigit
  if ds = [] then none
  else
    let r := l.drop ds.length
    match r with
    | '.' :: r2 =>
      let fs := r2.takeWhile Char.isDigit
      if fs = [] then some (ds, r)
      else some (ds ++ '.' :: fs, r2.drop fs.length)
    | _ => some (ds, r)

/-- Numeric value of a `\d+(?:\.\d+)?` capture (JS `parseFloat` on it). -/
def qOfNum (l : Chars) : JQ :=
  let ds := l.takeWhile Char.isDigit
  let r := l.drop ds.length
  match r with
  | '.' :: fs => (JQ.ofN (natOfDigits ds)).add (fracOfDigits (fs.takeWhile Char.isDigit))
  | _ => JQ.ofN (natOfDigits ds)

/-- JS `parseFloat` on an arbitrary string (no exponent forms: the inputs this
parser feeds it never contain `e`): skip leading whitespace, optional sign,
then the longest valid decimal prefix; `NaN` (no digits) becomes `none`. -/
def jsParseFloat (l : Chars) : Option JQ :=
  let l1 := l.dropWhile isWS
  let (neg, l2) : Bool × Chars :=
    match l1 with
    | '-' :: r => (true, r)
    | '+' :: r => (false, r)
    | _ => (false, l1)
  let signed : JQ → JQ := fun v => if neg then v.neg else v
  let ds := l2.takeWhile Char.isDigit
  let r := l2.drop ds.length
  if ds = [] then
    match r with
    | '.' :: r2 =>
      let fs := r2.takeWhile Char.isDigit
      if fs = [] then none else some (signed (fracOfDigits fs))
    | _ => none
  else
    match r with
    | '.' :: r2 =>
      some (signed ((JQ.ofN (natOfDigits ds)).add (fracOfDigits (r2.takeWhile Char.isDigit))))
    | _ => some (signed (JQ.ofN (natOfDigits ds)))

/-- Exactly two digit characters (`\d{2}` step of a greedy `\d{1,2}`). -/
def twoD : Chars → Option (Chars × Chars)
  | a :: b :: r => if a.isDigit && b.isDigit then some ([a, b], r) else none
  | _ => none

/-- Exactly one digit character. -/
def oneD : Chars → Option (Chars × Chars)
  | a :: r => if a.isDigit then some ([a], r) else none
  | _ => none

/-- Exactly four digit characters (`\d{4}`). -/
def fourD : Chars → Option (Chars × Chars)
  | a :: b :: c :: d :: r =>
    if a.isDigit && b.isDigit && c.isDigit && d.isDigit then
      some ([a, b, c, d], r)
    else none
  | _ => none

/-- A literal slash. -/
def slash : Chars → Option Chars
  | '/' :: r => some r
  | _ => none

/-- Greedy `(\d{1,2})` with continuation `k`: try two digits first, fall back
to one digit when either the digits or the continuation fail. -/
def d12k {β : Type} (k : Chars → Chars → Option β) (l : Chars) : Option β :=
  (match twoD l with
   | some (g, r) => k g r
   | none => none) <|>
  (match oneD l with
   | some (g, r) => k g r
   | none => none)

/-- The `parseDate` helper: the pattern `(\d{1,2})\/(\d{1,2})\/(\d{4})` tried at
one position, with the engine's greedy `{1,2}` backtracking (two digits
preferred, then one).  Returns the three captures. -/
def dateAt (l : Chars) : Option (Chars × Chars × Chars) :=
  d12k (fun mo r1 =>
    (slash r1).bind fun r2 =>
      d12k (fun da r3 =>
        (slash r3).bind fun r4 =>
          (fourD r4).map fun p => (mo, da, p.1)) r2) l

/-- The `padStart(2, "0")` on a one-or-two digit capture. -/
def pad2 (l : Chars) : Chars := if l.length = 1 then '0' :: l else l

/-- The `parseDate` from the source: find the first `M/D/YYYY` shape anywhere in
the text and canonicalize to `YYYY-MM-DD`; `null` when no such shape
occurs. -/
def parseDate (s : String) : Option String :=
  (searchFrom dateAt s.data).map fun (mo, da, yr) =>
    String.mk (yr ++ '-' :: pad2 mo ++ '-' :: pad2 da)

def parseDateO (s : Option String) : Option String :=
  match s with
  | none => none
  | some t => parseDate t

/-- The `parseNumber` from the source: strip `,` and `%`, trim, `parseFloat`,
`NaN ⇒ null`. -/
def parseNumber (s : String) : Option JQ :=
  let cleaned := ((s.data.filter (fun c => !(c = ',' || c = '%'))).dropWhile isWS).reverse.dropWhile isWS |>.reverse
  jsParseFloat cleaned

def parseNumberO (s : Option String) : Option JQ :=
  match s with
  | none => none
  | some t => parseNumber t

/-- The `parseFeet` matcher at one position: the regex
`(\d+(?:\.\d+)?)\s*['']?\s*(\d+(?:\.\d+)?)?\s*[""]?` — after the first
number every element is optional, so the greedy path never fails and the
match is: number, skip spaces, optional single-quote, skip spaces, optional
second number. -/
def feetAt (l : Chars) : Option JQ :=
  match numCapture l with
  | none => none
  | some (g1, r1) =>
    let r2 := r1.dropWhile isWS
    let r3 : Chars :=
      match r2 with
      | c :: cs => if c = '\'' || c = '’' then cs else r2
      | [] => r2
    let r4 := r3.dropWhile isWS
    match numCapture r4 with
    | some (g2, _) => some ((qOfNum g1).add ((qOfNum g2).divN 12))
    | none => some (qOfNum g1)

/-- The `parseFeet` from the source: first `F` or `F' I"` shape anywhere in the
text, converted to decimal feet (`feet + inches/12`) and rounded to two
decimal places. -/
def parseFeet (s : String) : Option JQ :=
  (searchFrom feetAt s.data).map round2

def parseFeetO (s : Option String) : Option JQ :=
  match s with
  | none => none
  | some t => parseFeet t

/-- The `parsePercent` matcher at one position: `(\d+(?:\.\d+)?)\s*%`. -/
def percentAt (l : Chars) : Option JQ :=
  match numCapture l with
  | none => none
  | some (g1, r1) =>
    match r1.dropWhile isWS with
    | '%' :: _ => some (qOfNum g1)
    | _ => none

/-- The `parsePercent` from the source: a number followed by `%` anywhere in the
text, else plain `parseFloat` of the whole text. -/
def parsePercent (s : String) : Option JQ :=
  match searchFrom percentAt s.data with
  | some q => some q
  | none => jsParseFloat s.data

def parsePercentO (s : Option String) : Option JQ :=
  match s with
  | none => none
  | some t => parsePercent t

-- ===========================================================================
-- Data model (§3): the TypeScript interfaces, field for field
-- ===========================================================================

structure Application where
  number : String
  status : String
  date_submitted : Option String
  date_issued : Option String
deriving Repr, DecidableEq

structure Property where
  address : String
  parcel : Option String
  zoning : Option String
  subdivision : Option String
  lot : Option String
  block : Option String
deriving Repr, DecidableEq

structure Party where
  name : Option String
  address : Option String
  phone : Option String
deriving Repr, DecidableEq

structure BuildingClass where
  occupancy_class : String
  construction_type : String
  square_feet : Option JQ
  occupancy_load : Option JQ
  use_description : String
deriving Repr, DecidableEq

structure DimensionalValue where
  maximum : Option JQ
  provided : Option JQ
deriving Repr, DecidableEq

structure Setbacks where
  front : Option DimensionalValue
  side_left : Option DimensionalValue
  side_right : Option DimensionalValue
  rear : Option DimensionalValue
deriving Repr, DecidableEq

structure Parking where
  bedrooms : Option JQ
  required : Option JQ
  provided : Option JQ
deriving Repr, DecidableEq

structure ZoningReview where
  zoning_district : Option String
  plat_name : Option String
  plat_number : Option String
  slab_sf : Option JQ
  lot_area_sf : Option JQ
  lot_coverage : Option DimensionalValue
  height : Option DimensionalValue
  lot_width : Option DimensionalValue
  driveway_coverage : Option DimensionalValue
  setbacks : Option Setbacks
  parking : Option Parking
  ufc_permit : Option String
deriving Repr, DecidableEq

structure Reviewer where
  name : Option String
  email : Option String
  phone : Option String
deriving Repr, DecidableEq

structure CorrectionItem where
  number : ℕ
  date : Option String
  text : String
deriving Repr, DecidableEq

structure CorrectionBlock where
  department : String
  reviewer : Reviewer
  items : List CorrectionItem
deriving Repr, DecidableEq

structure ApprovalTask where
  task_name : String
  status : String
  completed_date : Option String
  reviewer_name : Option String
deriving Repr, DecidableEq

structure ThirdPartyReview where
  company : Option String
  plan_review_date : Option String
  reviewed_by : Option String
  tenant_builder : Option String
deriving Repr, DecidableEq

structure PermitComments where
  application : Application
  property : Property
  description_of_work : Option String
  applicant : Party
  owner : Party
  building_classification : List BuildingClass
  corrections : List CorrectionBlock
  approval_tasks : List ApprovalTask
  zoning_review : Option ZoningReview
  third_party_review : Option ThirdPartyReview
  raw_text : Option String
deriving Repr, DecidableEq

-- ===========================================================================
-- Shared matcher helpers
-- ===========================================================================

/-- JS `trim()` (ASCII whitespace). -/
def trimWS (l : Chars) : Chars :=
  ((l.dropWhile isWS).reverse.dropWhile isWS).reverse

/-- A `match?.[i] || null` capture: absent or empty becomes `null`. -/
def optCapture (o : Option Chars) : Option String :=
  match o with
  | none => none
  | some c => orNull (String.mk c)

/-- JS `'.'` character class (no `s` flag): any character except line
terminators. -/
def isDot (c : Char) : Bool := !(c = '\n' || c = '\r')

/-- The `\s+` followed by a continuation that cannot start with whitespace:
maximal munch is exact. -/
def wsPlus (l : Chars) : Option Chars :=
  match l with
  | c :: cs => if isWS c then some (cs.dropWhile isWS) else none
  | [] => none

/-- The `[\s\S]{0,n}pat` (case-insensitive `pat`): the literal occurs within the
next `n` characters. -/
def scanUpTo (pat : Chars) : ℕ → Chars → Bool
  | 0, l => isPrefixCI pat l
  | k + 1, l =>
    isPrefixCI pat l ||
      match l with
      | [] => false
      | _ :: cs => scanUpTo pat k cs

/-- Exact-case substring test (JS `String.includes`). -/
def containsLit (pat : Chars) (l : Chars) : Bool :=
  l.tails.any fun t => (stripLit pat t).isSome

/-- Greedy `\s{2,}` then `pat` case-insensitively (the statuses/labels after
it never start with whitespace, so maximal munch is exact). -/
def twoWSThenCI (pat : Chars) (t : Chars) : Bool :=
  match t with
  | a :: b :: r => isWS a && isWS b && isPrefixCI pat (r.dropWhile isWS)
  | _ => false

/-- The `(\d{1,2})\/(\d{1,2})\/(\d{4})` capture at one position, rebuilt as the
matched substring together with the rest of the input. -/
def dateCapture (l : Chars) : Option (Chars × Chars) :=
  (dateAt l).map fun (mo, da, yr) =>
    (mo ++ '/' :: da ++ '/' :: yr, l.drop (mo.length + da.length + yr.length + 2))

-- ===========================================================================
-- parseHeader
-- ===========================================================================

/-- The `/Application:\s*(PB\d+-\d+)/i` at one position. -/
def appAt (l : Chars) : Option Chars :=
  match stripCI "application:".data l with
  | none => none
  | some r =>
    match r.dropWhile isWS with
    | a :: b :: r2 =>
      if lowerC a = 'p' && lowerC b = 'b' then
        let d1 := r2.takeWhile Char.isDigit
        if d1 = [] then none
        else
          match r2.drop d1.length with
          | '-' :: r3 =>
            let d2 := r3.takeWhile Char.isDigit
            if d2 = [] then none else some (a :: b :: (d1 ++ '-' :: d2))
          | _ => none
      else none
    | _ => none

/-- The `/Status:\s*([A-Za-z\s]+?)(?:\s{2,}|Date|$)/i` at one position.  The `\s*`
backtracks into the lazy group (whose class also contains whitespace). -/
def statusAt (l : Chars) : Option Chars :=
  match stripCI "status:".data l with
  | none => none
  | some r =>
    (greedy0 isWS
      (lazy1 (fun c => isAlphaC c || isWS c) fun t =>
        if twoWSThenCI [] t || isPrefixCI "date".data t || t = [] then some () else none)
      r).map fun p => p.2.1

/-- The `/Date Submitted:\s*(\d{1,2}\/\d{1,2}\/\d{4})/i` at one position. -/
def submittedAt (l : Chars) : Option Chars :=
  match stripCI "date submitted:".data l with
  | none => none
  | some r => (dateCapture (r.dropWhile isWS)).map Prod.fst

/-- The `/Date Issued:\s*(\d{1,2}\/\d{1,2}\/\d{4})/i` at one position. -/
def issuedAt (l : Chars) : Option Chars :=
  match stripCI "date issued:".data l with
  | none => none
  | some r => (dateCapture (r.dropWhile isWS)).map Prod.fst

/-- The `/Address:\s*(.+?)(?:\n|Parcel)/is` at one position (`s` flag: the lazy
group crosses newlines). -/
def addressAt (l : Chars) : Option Chars :=
  match stripCI "address:".data l with
  | none => none
  | some r =>
    (greedy0 isWS
      (lazy1 (fun _ => true) fun t =>
        match t with
        | '\n' :: _ => some ()
        | _ => if isPrefixCI "parcel".data t then some () else none)
      r).map fun p => p.2.1

/-- The `/Parcel:\s*(\d+)/i` at one position. -/
def parcelAt (l : Chars) : Option Chars :=
  match stripCI "parcel:".data l with
  | none => none
  | some r =>
    let d := (r.dropWhile isWS).takeWhile Char.isDigit
    if d = [] then none else some d

/-- The `/Zoning:\s*([A-Z0-9-]+)/i` at one position (`i`: letters of either
case). -/
def zoningFieldAt (l : Chars) : Option Chars :=
  match stripCI "zoning:".data l with
  | none => none
  | some r =>
    let g := (r.dropWhile isWS).takeWhile fun c => isAlphaC c || c.isDigit || c = '-'
    if g = [] then none else some g

/-- The `/Subdivision:\s*([A-Za-z][A-Za-z0-9\s]+?)(?:\s{2,}|Lot\/Block|\n)/i` at
one position. -/
def subdivisionAt (l : Chars) : Option Chars :=
  match stripCI "subdivision:".data l with
  | none => none
  | some r =>
    match r.dropWhile isWS with
    | c :: cs =>
      if isAlphaC c then
        (lazy1 (fun d => isAlphaC d || d.isDigit || isWS d) (fun t =>
          if twoWSThenCI [] t || isPrefixCI "lot/block".data t || t.head? = some '\n' then
            some () else none) cs).map fun p => c :: p.1
      else none
    | [] => none

/-- A one-or-more character-class token (`[…]+`) with maximal munch: the
captured run and the rest, or `none` when the first character is not in the
class. -/
def takeWhile1 (p : Char → Bool) (l : Chars) : Option (Chars × Chars) :=
  let g := l.takeWhile p
  if g = [] then none else some (g, l.drop g.length)

/-- The `/Lot\/Block:\s*([^\/\s]+)\s*\/\s*([^\s\n]+)/i` at one position. -/
def lotBlockAt (l : Chars) : Option (Chars × Chars) :=
  match stripCI "lot/block:".data l with
  | none => none
  | some r =>
    match takeWhile1 (fun c => !(c = '/' || isWS c)) (r.dropWhile isWS) with
    | none => none
    | some (g1, r1) =>
      match r1.dropWhile isWS with
      | '/' :: r2 =>
        match takeWhile1 (fun c => !isWS c) (r2.dropWhile isWS) with
        | none => none
        | some (g2, _) => some (g1, g2)
      | _ => none

/-- The `parseHeader` from the source. -/
def parseHeader (content : Chars) : Application × Property :=
  let lotBlock := searchFrom lotBlockAt content
  ({ number := (optCapture (searchFrom appAt content)).getD ""
     status := cleanTextS (String.mk ((searchFrom statusAt content).getD []))
     date_submitted := parseDateO (optCapture (searchFrom submittedAt content))
     date_issued := parseDateO (optCapture (searchFrom issuedAt content)) },
   { address := cleanTextS (String.mk ((searchFrom addressAt content).getD []))
     parcel := optCapture (searchFrom parcelAt content)
     zoning := optCapture (searchFrom zoningFieldAt content)
     subdivision := orNull (cleanTextS (String.mk ((searchFrom subdivisionAt content).getD [])))
     lot := optCapture (lotBlock.map Prod.fst)
     block := optCapture (lotBlock.map Prod.snd) })

-- ===========================================================================
-- parseDescriptionOfWork
-- ===========================================================================

/-- Terminator `(?:\n\s*\n|ADA TDLR)` of the description regex: a newline,
optional whitespace, another newline — equivalently the whitespace run after
the first newline contains a further newline — or the literal. -/
def descTerm (t : Chars) : Option Unit :=
  match t with
  | '\n' :: r => if '\n' ∈ r.takeWhile isWS then some () else
      if isPrefixCI "ada tdlr".data ('\n' :: r) then some () else none
  | _ => if isPrefixCI "ada tdlr".data t then some () else none

/-- The `/Description of Work:\s*(.+?)(?:\n\s*\n|ADA TDLR)/is` at one position. -/
def descAt (l : Chars) : Option Chars :=
  match stripCI "description of work:".data l with
  | none => none
  | some r =>
    (greedy0 isWS (lazy1 (fun _ => true) descTerm) r).map fun p => p.2.1

/-- The `parseDescriptionOfWork` from the source. -/
def parseDescriptionOfWork (content : Chars) : Option String :=
  (searchFrom descAt content).map fun g => cleanTextS (String.mk g)

-- ===========================================================================
-- parseApplicantOwner
-- ===========================================================================

/-- Terminator `(?:\s{2,}Owner:|$)` (dot-all lazy group before it). -/
def applicantTerm (t : Chars) : Option Unit :=
  match t with
  | [] => some ()
  | a :: b :: r =>
    if isWS a && isWS b then
      if wsThenOwner r then some () else none
    else none
  | _ => none
where
  /-- The `\s*Owner:` — skip whitespace (any amount) then the literal. -/
  wsThenOwner : Chars → Bool
    | [] => false
    | c :: cs => isPrefixCI "owner:".data (c :: cs) || (isWS c && wsThenOwner cs)

/-- The `/Applicant:\s*(.+?)(?:\s{2,}Owner:|$)/is` at one position. -/
def applicantAt (l : Chars) : Option Chars :=
  match stripCI "applicant:".data l with
  | none => none
  | some r =>
    (greedy0 isWS (lazy1 (fun _ => true) applicantTerm) r).map fun p => p.2.1

/-- Terminator `(?:\n[A-Z][a-z]+:|Building Classification)` (with the `i`
flag both classes mean "letter"). -/
def ownerTerm (t : Chars) : Option Unit :=
  if isPrefixCI "building classification".data t then some ()
  else
    match t with
    | '\n' :: c :: r =>
      if isAlphaC c then
        let run := r.takeWhile isAlphaC
        if run ≠ [] && (r.drop run.length).head? = some ':' then some () else none
      else none
    | _ => none

/-- The `/Owner:\s*(.+?)(?:\n[A-Z][a-z]+:|Building Classification)/is` at one
position. -/
def ownerAt (l : Chars) : Option Chars :=
  match stripCI "owner:".data l with
  | none => none
  | some r =>
    (greedy0 isWS (lazy1 (fun _ => true) ownerTerm) r).map fun p => p.2.1

/-- The phone pattern `(\d{10}|\d{3}-\d{3}-\d{4}|\(\d{3}\)\s*\d{3}-\d{4})`
tried at one position, alternatives in source order. -/
def phoneAt (l : Chars) : Option Chars :=
  alt10 l <|> altDash l <|> altParen l
where
  digitsN : ℕ → Chars → Option (Chars × Chars)
    | 0, r => some ([], r)
    | n + 1, c :: cs =>
      if c.isDigit then (digitsN n cs).map fun p => (c :: p.1, p.2) else none
    | _ + 1, [] => none
  alt10 (l : Chars) : Option Chars := (digitsN 10 l).map Prod.fst
  altDash (l : Chars) : Option Chars := do
    let (a, r1) ← digitsN 3 l
    match r1 with
    | '-' :: r2 =>
      let (b, r3) ← digitsN 3 r2
      match r3 with
      | '-' :: r4 =>
        let (c, _) ← digitsN 4 r4
        some (a ++ '-' :: b ++ '-' :: c)
      | _ => none
    | _ => none
  altParen (l : Chars) : Option Chars := do
    match l with
    | '(' :: r1 =>
      let (a, r2) ← digitsN 3 r1
      match r2 with
      | ')' :: r3 =>
        let r4 := r3.dropWhile isWS
        let ws := r3.takeWhile isWS
        let (b, r5) ← digitsN 3 r4
        match r5 with
        | '-' :: r6 =>
          let (c, _) ← digitsN 4 r6
          some ('(' :: a ++ ')' :: ws ++ b ++ '-' :: c)
        | _ => none
      | _ => none
    | _ => none

/-- Split a character list at every newline (JS `split("\n")`). -/
def splitNL : Chars → List Chars
  | [] => [[]]
  | c :: cs =>
    if c = '\n' then [] :: splitNL cs
    else
      match splitNL cs with
      | seg :: rest => (c :: seg) :: rest
      | [] => [[c]]

/-- A line consisting of exactly ten digits (`/^\d{10}$/`). -/
def isTenDigits (l : Chars) : Bool := l.length = 10 && l.all Char.isDigit

/-- JS `Array.join(", ")`. -/
def joinComma : List Chars → Chars
  | [] => []
  | [x] => x
  | x :: xs => x ++ ',' :: ' ' :: joinComma xs

/-- The `parseParty` from the source. -/
def parseParty (text : Option Chars) : Party :=
  match text with
  | none => { name := none, address := none, phone := none }
  | some t =>
    let lines := ((splitNL t).map trimWS).filter (· ≠ [])
    let addr := joinComma ((lines.drop 1).filter fun l => !isTenDigits l)
    { name := (lines.head?).map String.mk
      address := orNull (String.mk addr)
      phone := (searchFrom phoneAt t).map String.mk }

/-- The `parseApplicantOwner` from the source. -/
def parseApplicantOwner (content : Chars) : Party × Party :=
  (parseParty (searchFrom applicantAt content),
   parseParty (searchFrom ownerAt content))

-- ===========================================================================
-- parseZoningReview
-- ===========================================================================

/-- Single-quote class `['']` (straight and typographic). -/
def isSQ (c : Char) : Bool := c = '\'' || c = '’'

/-- Double-quote class `[""]` (straight and typographic). -/
def isDQ (c : Char) : Bool := c = '"' || c = '“' || c = '”'

/-- Setback capture class `[\d'"\s.½]`. -/
def isSetCls (c : Char) : Bool :=
  c.isDigit || isSQ c || isDQ c || isWS c || c = '.' || c = '½'

/-- Height capture class `[\d'"\s.]`. -/
def isHtCls (c : Char) : Bool := c.isDigit || isSQ c || isDQ c || isWS c || c = '.'

/-- Percent capture class `[\d.]`. -/
def isPctCls (c : Char) : Bool := c.isDigit || c = '.'

/-- Terminator of the zoning span:
`(?:INFORMATION BLOCK|end ZONING|Planning Development Department[\s\S]{0,100}Planning Development Department|$)`. -/
def zoneTerm (t : Chars) : Option Unit :=
  if isPrefixCI "information block".data t then some ()
  else if isPrefixCI "end zoning".data t then some ()
  else
    match stripCI "planning development department".data t with
    | some r =>
      if scanUpTo "planning development department".data 100 r then some ()
      else if t = [] then some () else none
    | none => if t = [] then some () else none

/-- The `/Zoning Plans Exam([\s\S]*?)(?:…)/i` tried at one position. -/
def zoneAt (l : Chars) : Option Chars :=
  match stripCI "zoning plans exam".data l with
  | none => none
  | some r => (lazy0 (fun _ => true) zoneTerm r).map Prod.fst

/-- The zoning-section span. -/
def zoningSpan (content : Chars) : Option Chars := searchFrom zoneAt content

/-- Shared prelude `LABEL\s*(\d+)%?\s*maximum` of the coverage cascades.
Returns the `(\d+)` capture and the rest after `maximum`. -/
def pctPrel (label : String) (l : Chars) : Option (Chars × Chars) :=
  match stripCI label.data l with
  | none => none
  | some r =>
    let r1 := r.dropWhile isWS
    let g1 := r1.takeWhile Char.isDigit
    if g1 = [] then none
    else
      let r2 := r1.drop g1.length
      let r3 := match r2 with | '%' :: t => t | _ => r2
      match stripCI "maximum".data (r3.dropWhile isWS) with
      | none => none
      | some r4 => some (g1, r4)

/-- Shared prelude `LABEL\s*(\d+)['']?\s*KW` of the feet-valued cascades
(`KW` is `maximum`, `minimum` or `platted`). -/
def feetPrel (label : String) (kws : List String) (l : Chars) : Option (Chars × Chars) :=
  match stripCI label.data l with
  | none => none
  | some r => feetPrelTail kws r
where
  feetPrelTail (kws : List String) (r : Chars) : Option (Chars × Chars) :=
    let r1 := r.dropWhile isWS
    let g1 := r1.takeWhile Char.isDigit
    if g1 = [] then none
    else
      let r2 := r1.drop g1.length
      let r3 := match r2 with
        | c :: t => if isSQ c then t else r2
        | [] => r2
      let r4 := r3.dropWhile isWS
      (kws.map (fun kw => stripCI kw.data r4)).firstM (fun o => o) |>.map (g1, ·)

/-- Terminator `\(Provided\s*([\d.]+)%?\)` of the `(Provided …%)` coverage
variants. -/
def provPctTerm (t : Chars) : Option Chars :=
  match t with
  | '(' :: r =>
    match stripCI "provided".data r with
    | none => none
    | some r1 =>
      let r2 := r1.dropWhile isWS
      let g2 := r2.takeWhile isPctCls
      if g2 = [] then none
      else
        match r2.drop g2.length with
        | '%' :: ')' :: _ => some g2
        | ')' :: _ => some g2
        | _ => none
  | _ => none

/-- Variant 1: `/Lot coverage:\s*(\d+)%?\s*maximum[\s\S]*?\(Provided\s*([\d.]+)%?\)/i`. -/
def lotCov1At (l : Chars) : Option (Chars × Chars) :=
  match pctPrel "lot coverage:" l with
  | none => none
  | some (g1, r4) => (lazy0 (fun _ => true) provPctTerm r4).map fun p => (g1, p.2)

/-- Variant 2: `/Lot coverage:\s*(\d+)%?\s*maximum[:\s"]*([\d.]+)%/i`. -/
def lotCov2At (l : Chars) : Option (Chars × Chars) :=
  match pctPrel "lot coverage:" l with
  | none => none
  | some (g1, r4) =>
    let r5 := r4.dropWhile fun c => c = ':' || isWS c || isDQ c
    let g2 := r5.takeWhile isPctCls
    if g2 = [] then none
    else
      match r5.drop g2.length with
      | '%' :: _ => some (g1, g2)
      | _ => none

/-- Variant 3: `/coverage[:\s]+(\d+)%?\s*maximum[\s\S]*?(?:Provided|at)\s*([\d.]+)%/i`. -/
def lotCov3At (l : Chars) : Option (Chars × Chars) :=
  match stripCI "coverage".data l with
  | none => none
  | some r =>
    match r.head? with
    | some c =>
      if c = ':' || isWS c then
        let r1 := r.dropWhile fun d => d = ':' || isWS d
        let g1 := r1.takeWhile Char.isDigit
        if g1 = [] then none
        else
          let r2 := r1.drop g1.length
          let r3 := match r2 with | '%' :: t => t | _ => r2
          match stripCI "maximum".data (r3.dropWhile isWS) with
          | none => none
          | some r4 => (lazy0 (fun _ => true) lotCov3Term r4).map fun p => (g1, p.2)
      else none
    | none => none
where
  -- `(?:Provided|at)\s*([\d.]+)%`
  lotCov3Term (t : Chars) : Option Chars :=
    match stripCI "provided".data t <|> stripCI "at".data t with
    | none => none
    | some r =>
      let r1 := r.dropWhile isWS
      let g2 := r1.takeWhile isPctCls
      if g2 = [] then none
      else
        match r1.drop g2.length with
        | '%' :: _ => some g2
        | _ => none

/-- Terminator `\(Provided[:\s]*([\d'"\s.]+)\)` of height variant 1 (the
`[:\s]*` run backtracks into the capture class, which also contains
whitespace). -/
def provHtTerm (t : Chars) : Option Chars :=
  match t with
  | '(' :: r =>
    match stripCI "provided".data r with
    | none => none
    | some r1 =>
      (greedy0 (fun c => c = ':' || isWS c) (fun r2 =>
        (greedy1 isHtCls (fun r3 =>
          match r3 with
          | ')' :: _ => some ()
          | _ => none) r2).map Prod.fst) r1).map Prod.snd
  | _ => none

/-- Variant 1: `/Height:\s*(\d+)['']?\s*maximum[\s\S]*?\(Provided[:\s]*([\d'"\s.]+)\)/i`. -/
def height1At (l : Chars) : Option (Chars × Chars) :=
  match feetPrel "height:" ["maximum"] l with
  | none => none
  | some (g1, r4) => (lazy0 (fun _ => true) provHtTerm r4).map fun p => (g1, p.2)

/-- Variant 2: `/Height:\s*(\d+)['']?\s*maximum[:\s"]+(?:Provided\s*)?([\d'"\s.]+)/i`. -/
def height2At (l : Chars) : Option (Chars × Chars) :=
  match feetPrel "height:" ["maximum"] l with
  | none => none
  | some (g1, r4) =>
    (greedy1 (fun c => c = ':' || isWS c || isDQ c) (fun r5 =>
      (match stripCI "provided".data r5 with
       | some r6 =>
         (greedy0 isWS (fun r7 => (greedy1 isHtCls (fun _ => some ()) r7).map Prod.fst) r6).map Prod.snd
       | none => none)
      <|> (greedy1 isHtCls (fun _ => some ()) r5).map Prod.fst) r4).map fun p => (g1, p.2)

/-- Variant 1: `/Lot Width:\s*(\d+)['']?\s*minimum[\s\S]*?\(Provided\s*([\d'.]+)\)/i`. -/
def lotWidth1At (l : Chars) : Option (Chars × Chars) :=
  match feetPrel "lot width:" ["minimum"] l with
  | none => none
  | some (g1, r4) => (lazy0 (fun _ => true) lwTerm r4).map fun p => (g1, p.2)
where
  lwTerm (t : Chars) : Option Chars :=
    match t with
    | '(' :: r =>
      match stripCI "provided".data r with
      | none => none
      | some r1 =>
        let r2 := r1.dropWhile isWS
        let g2 := r2.takeWhile fun c => c.isDigit || isSQ c || c = '.'
        if g2 = [] then none
        else if (r2.drop g2.length).head? = some ')' then some g2 else none
    | _ => none

/-- The `[^:]*:` — everything up to the first colon (the class cannot cross one),
then the colon itself. -/
def upToColon (l : Chars) : Option Chars :=
  let pre := l.takeWhile (· ≠ ':')
  match l.drop pre.length with
  | ':' :: r => some r
  | _ => none

/-- Variant 2: `/Lot Width:\s*(\d+)['']?\s*minimum[^:]*:[:\s_]*([\d'.]+)/i`
(the run class `[:\s_]` and the capture class `[\d'.]` are disjoint, so
maximal munch is exact). -/
def lotWidth2At (l : Chars) : Option (Chars × Chars) :=
  match feetPrel "lot width:" ["minimum"] l with
  | none => none
  | some (g1, r4) =>
    match upToColon r4 with
    | none => none
    | some r5 =>
      let r6 := r5.dropWhile fun c => c = ':' || isWS c || c = '_'
      let g2 := r6.takeWhile fun c => c.isDigit || isSQ c || c = '.'
      if g2 = [] then none else some (g1, g2)

/-- Variant 1: `/driveway coverage:\s*(\d+)%?\s*maximum[\s\S]*?\(Provided\s*([\d.]+)%?\)/i`. -/
def driveway1At (l : Chars) : Option (Chars × Chars) :=
  match pctPrel "driveway coverage:" l with
  | none => none
  | some (g1, r4) => (lazy0 (fun _ => true) provPctTerm r4).map fun p => (g1, p.2)

/-- Variant 2: `/driveway coverage:\s*(\d+)%?\s*maximum[:\s"]*([\d.]+)%?/i`. -/
def driveway2At (l : Chars) : Option (Chars × Chars) :=
  match pctPrel "driveway coverage:" l with
  | none => none
  | some (g1, r4) =>
    let r5 := r4.dropWhile fun c => c = ':' || isWS c || isDQ c
    let g2 := r5.takeWhile isPctCls
    if g2 = [] then none else some (g1, g2)

/-- The `[^(]*\(` — everything up to the first opening parenthesis, then the
parenthesis. -/
def upToParen (l : Chars) : Option Chars :=
  let pre := l.takeWhile (· ≠ '(')
  match l.drop pre.length with
  | '(' :: r => some r
  | _ => none

/-- The `Provided[:\s_]*([\d'"\s.½]+)\)` — the provided part of the setback
`(Provided …)` variants, with backtracking between the run and the capture
class (they share whitespace). -/
def setProvTerm (r : Chars) : Option Chars :=
  match stripCI "provided".data r with
  | none => none
  | some r1 =>
    (greedy0 (fun c => c = ':' || isWS c || c = '_') (fun r2 =>
      (greedy1 isSetCls (fun r3 =>
        match r3 with
        | ')' :: _ => some ()
        | _ => none) r2).map Prod.fst) r1).map Prod.snd

/-- Variant 1 of Front/Rear:
`/LABEL\s*(\d+)['']?\s*KW[^(]*\(Provided[:\s_]*([\d'"\s.½]+)\)/i`. -/
def setback1At (label : String) (kws : List String) (l : Chars) : Option (Chars × Chars) :=
  match feetPrel label kws l with
  | none => none
  | some (g1, r4) =>
    match upToParen r4 with
    | none => none
    | some r5 => (setProvTerm r5).map (g1, ·)

/-- Variant 2 of Front:
`/Front:\s*(\d+)['']?\s*(?:minimum|platted)[^:]*:[:\s_]*([\d'"\s.½]+)/i`. -/
def front2At (l : Chars) : Option (Chars × Chars) :=
  match feetPrel "front:" ["minimum", "platted"] l with
  | none => none
  | some (g1, r4) =>
    match upToColon r4 with
    | none => none
    | some r5 =>
      (greedy0 (fun c => c = ':' || isWS c || c = '_') (fun r6 =>
        (greedy1 isSetCls (fun _ => some ()) r6).map Prod.fst) r5).map fun p => (g1, p.2)

/-- Variant 2 of Rear: `/Rear:\s*(\d+)['']?\s*minimum[:\s_]*([\d'"\s.½]+)/i`. -/
def rear2At (l : Chars) : Option (Chars × Chars) :=
  match feetPrel "rear:" ["minimum"] l with
  | none => none
  | some (g1, r4) =>
    (greedy0 (fun c => c = ':' || isWS c || c = '_') (fun r5 =>
      (greedy1 isSetCls (fun _ => some ()) r5).map Prod.fst) r4).map fun p => (g1, p.2)

/-- The `Sides?:` label: `Side`, optional `s`, then the colon. -/
def sidesLabel (l : Chars) : Option Chars :=
  match stripCI "side".data l with
  | none => none
  | some r =>
    match r with
    | c :: t =>
      if lowerC c = 's' then
        match t with
        | ':' :: t2 => some t2
        | _ => none
      else if c = ':' then some t
      else none
    | [] => none

/-- Variant 1 of Sides:
`/Sides?:\s*(\d+)['']?\s*minimum[^(]*\(Provided\s*([\d'"\s.½]+)\s*[&,]\s*([\d'"\s.½]+)\)/i`. -/
def sides1At (l : Chars) : Option (Chars × Chars × Chars) :=
  match sidesLabel l with
  | none => none
  | some r =>
    match feetPrel.feetPrelTail ["minimum"] r with
    | none => none
    | some (g1, r4) =>
      match upToParen r4 with
      | none => none
      | some r5 =>
        match stripCI "provided".data r5 with
        | none => none
        | some r6 =>
          -- after the second capture: `\s*[&,]\s*([\d'"\s.½]+)\)`
          let afterG2 : Chars → Option Chars := fun r8 =>
            (greedy0 isWS (fun r9 =>
              match r9 with
              | c :: r10 =>
                if c = '&' || c = ',' then
                  (greedy0 isWS (fun r11 =>
                    (greedy1 isSetCls (fun r12 =>
                      match r12 with
                      | ')' :: _ => some ()
                      | _ => none) r11).map Prod.fst) r10).map Prod.snd
                else none
              | [] => none) r8).map Prod.snd
          (greedy0 isWS (fun r7 => greedy1 isSetCls afterG2 r7) r6).map
            fun p => (g1, p.2.1, p.2.2)

/-- Variant 2 of Sides:
`/Sides?:\s*(\d+)['']?\s*minimum[^L]*Left[:\s]*([\d'"\s.½]+)[^R]*Right[:\s]*([\d'"\s.½]+)/i`
(with the `i` flag `[^L]` excludes both cases of `l`). -/
def sides2At (l : Chars) : Option (Chars × Chars × Chars) :=
  match sidesLabel l with
  | none => none
  | some r =>
    match feetPrel.feetPrelTail ["minimum"] r with
    | none => none
    | some (g1, r4) =>
      let toL := r4.takeWhile fun c => lowerC c ≠ 'l'
      match stripCI "left".data (r4.drop toL.length) with
      | none => none
      | some r5 =>
        ((greedy0 (fun c => c = ':' || isWS c) (fun r6 =>
          (greedy1 isSetCls (fun r7 =>
            let toR := r7.takeWhile fun c => lowerC c ≠ 'r'
            match stripCI "right".data (r7.drop toR.length) with
            | none => none
            | some r8 =>
              (greedy0 (fun c => c = ':' || isWS c) (fun r9 =>
                (greedy1 isSetCls (fun _ => some ()) r9).map Prod.fst) r8).map Prod.snd) r6).map
            fun p => (p.1, p.2)) r5).map fun p => (g1, p.2.1, p.2.2))

/-- The `/#\s*[Bb]edrooms?:\s*[_]?(\d+)/i`. -/
def bedroomsAt (l : Chars) : Option Chars :=
  match l with
  | '#' :: r =>
    match (r.dropWhile isWS) with
    | c :: r1 =>
      if lowerC c = 'b' then
        match stripCI "edroom".data r1 with
        | none => none
        | some r2 =>
          let r3 := match r2 with
            | d :: t => if lowerC d = 's' then t else r2
            | [] => r2
          match r3 with
          | ':' :: r4 =>
            let r5 := r4.dropWhile isWS
            let r6 := match r5 with
              | '_' :: t => t
              | _ => r5
            let g := r6.takeWhile Char.isDigit
            if g = [] then none else some g
          | _ => none
      else none
    | [] => none
  | _ => none

/-- The `/(?:parking\s+)?spaces\s+WORD[:\s_]*(\d+)/i` — shared shape of the
parking required/provided matchers. -/
def spacesAt (word : String) (l : Chars) : Option Chars :=
  let core := fun (r : Chars) =>
    match stripCI "spaces".data r with
    | none => none
    | some r1 =>
      match wsPlus r1 with
      | none => none
      | some r2 =>
        match stripCI word.data r2 with
        | none => none
        | some r3 =>
          let r4 := r3.dropWhile fun c => c = ':' || isWS c || c = '_'
          let g := r4.takeWhile Char.isDigit
          if g = [] then none else some g
  (match stripCI "parking".data l with
   | some r =>
     match wsPlus r with
     | some r1 => core r1
     | none => none
   | none => none) <|> core l

/-- The `/UFC[#\s-]*(\d+-\d+)/i`. -/
def ufcAt (l : Chars) : Option Chars :=
  match stripCI "ufc".data l with
  | none => none
  | some r =>
    let r1 := r.dropWhile fun c => c = '#' || isWS c || c = '-'
    let d1 := r1.takeWhile Char.isDigit
    if d1 = [] then none
    else
      match r1.drop d1.length with
      | '-' :: r2 =>
        let d2 := r2.takeWhile Char.isDigit
        if d2 = [] then none else some (d1 ++ '-' :: d2)
      | _ => none

/-- The `/Zoning district:\s*[""]?([A-Z0-9\s-]+?)(?:[""]|\s+Type of|\n)/i`. -/
def zDistAt (l : Chars) : Option Chars :=
  match stripCI "zoning district:".data l with
  | none => none
  | some r =>
    (greedy0 isWS (fun r1 =>
      let core := fun (r2 : Chars) =>
        (lazy1 (fun c => isAlphaC c || c.isDigit || isWS c || c = '-') (fun t =>
          match t.head? with
          | some c =>
            if isDQ c then some ()
            else if c = '\n' then some ()
            else if isWS c && isPrefixCI "type of".data (t.dropWhile isWS) then some ()
            else none
          | none => none) r2).map Prod.fst
      (match r1 with
       | c :: t => if isDQ c then core t <|> core r1 else core r1
       | [] => core r1)) r).map Prod.snd

/-- The `/Official Plat:.*?\(([^)]+)\)/i`. -/
def platNameAt (l : Chars) : Option Chars :=
  match stripCI "official plat:".data l with
  | none => none
  | some r =>
    (lazy0 isDot (fun t =>
      match t with
      | '(' :: r2 =>
        let g := r2.takeWhile (· ≠ ')')
        if g = [] then none
        else if (r2.drop g.length).head? = some ')' then some g else none
      | _ => none) r).map Prod.snd

/-- The `/(FP-\d+-\d+)/i` at one position. -/
def platNumAt (l : Chars) : Option Chars :=
  match l with
  | a :: b :: '-' :: r =>
    if lowerC a = 'f' && lowerC b = 'p' then
      let d1 := r.takeWhile Char.isDigit
      if d1 = [] then none
      else
        match r.drop d1.length with
        | '-' :: r2 =>
          let d2 := r2.takeWhile Char.isDigit
          if d2 = [] then none else some (a :: b :: '-' :: (d1 ++ '-' :: d2))
        | _ => none
    else none
  | _ => none

/-- The `/Slab SF:\s*([\d,]+)/i`. -/
def slabAt (l : Chars) : Option Chars :=
  match stripCI "slab sf:".data l with
  | none => none
  | some r =>
    let g := (r.dropWhile isWS).takeWhile fun c => c.isDigit || c = ','
    if g = [] then none else some g

/-- The `/Lot Area(?:\s*SF)?:\s*([\d,.]+)/i`. -/
def lotAreaAt (l : Chars) : Option Chars :=
  match stripCI "lot area".data l with
  | none => none
  | some r =>
    let afterColon :=
      (greedy0 isWS (fun r1 =>
        match stripCI "sf".data r1 with
        | some (':' :: r2) => some r2
        | _ => none) r).map Prod.snd
      <|> (match r with
           | ':' :: r1 => some r1
           | _ => none)
    match afterColon with
    | none => none
    | some r3 =>
      let g := (r3.dropWhile isWS).takeWhile fun c => c.isDigit || c = ',' || c = '.'
      if g = [] then none else some g

/-- The `if (a !== null || b !== null) then struct else null` construction
used for every DimensionalValue. -/
def mkDV (p : Option JQ × Option JQ) : Option DimensionalValue :=
  if p.1.isSome || p.2.isSome then some ⟨p.1, p.2⟩ else none

/-- Run a two-capture cascade (first match wins) and convert both captures
with `conv`. -/
def cascade2 (conv : String → Option JQ) (ms : List (Chars → Option (Chars × Chars)))
    (zc : Chars) : Option JQ × Option JQ :=
  match ms with
  | [] => (none, none)
  | m :: rest =>
    match searchFrom m zc with
    | some (a, b) => (conv (String.mk a), conv (String.mk b))
    | none => cascade2 conv rest zc

/-- The `parseZoningReview` from the source. -/
def parseZoningReview (content : Chars) : Option ZoningReview :=
  match zoningSpan content with
  | none => none
  | some zc =>
    let lc := cascade2 parsePercent [lotCov1At, lotCov2At, lotCov3At] zc
    let ht := cascade2 parseFeet [height1At, height2At] zc
    let lw := cascade2 parseFeet [lotWidth1At, lotWidth2At] zc
    let dw := cascade2 parsePercent [driveway1At, driveway2At] zc
    let fr := cascade2 parseFeet [setback1At "front:" ["minimum", "platted"], front2At] zc
    let re := cascade2 parseFeet [setback1At "rear:" ["minimum"], rear2At] zc
    let sides : Option JQ × Option JQ × Option JQ :=
      match searchFrom sides1At zc with
      | some (a, b, c) => (parseFeet (String.mk a), parseFeet (String.mk b), parseFeet (String.mk c))
      | none =>
        match searchFrom sides2At zc with
        | some (a, b, c) => (parseFeet (String.mk a), parseFeet (String.mk b), parseFeet (String.mk c))
        | none => (none, none, none)
    some
      { zoning_district := orNull (cleanTextS (String.mk ((searchFrom zDistAt zc).getD [])))
        plat_name := orNull (cleanTextS (String.mk ((searchFrom platNameAt zc).getD [])))
        plat_number := optCapture (searchFrom platNumAt zc)
        slab_sf := parseNumberO (optCapture (searchFrom slabAt zc))
        lot_area_sf := parseNumberO (optCapture (searchFrom lotAreaAt zc))
        lot_coverage := mkDV lc
        height := mkDV ht
        lot_width := mkDV lw
        driveway_coverage := mkDV dw
        setbacks := some
          { front := mkDV fr
            side_left := mkDV (sides.1, sides.2.1)
            side_right := mkDV (sides.1, sides.2.2)
            rear := mkDV re }
        parking := some
          { bedrooms := parseNumberO (optCapture (searchFrom bedroomsAt zc))
            required := parseNumberO (optCapture (searchFrom (spacesAt "required") zc))
            provided := parseNumberO (optCapture (searchFrom (spacesAt "provided") zc)) }
        ufc_permit := optCapture (searchFrom ufcAt zc) }

-- ===========================================================================
-- parseCorrections
-- ===========================================================================

/-- The `/Required Corrections:([\s\S]*?)(?:Approval Table:|General Comments)/i`:
the corrections-section span (no `$` alternative — a closing anchor is
required). -/
def corrAt (l : Chars) : Option Chars :=
  match stripCI "required corrections:".data l with
  | none => none
  | some r =>
    (lazy0 (fun _ => true) (fun t =>
      if isPrefixCI "approval table:".data t ||
          isPrefixCI "general comments".data t then some () else none) r).map
      Prod.fst

def corrSpan (content : Chars) : Option Chars := searchFrom corrAt content

/-- Scan of the department-header lookahead after its initial letter:
`[A-Za-z\s]*\nReviewer:` (the class itself contains `\n`, so the run may
span lines; the decisive `\n` is the one directly before `Reviewer:`). -/
def deptLAScan : Chars → Bool
  | [] => false
  | c :: cs =>
    (c = '\n' && (stripLit "Reviewer:".data cs).isSome) ||
      ((isAlphaC c || isWS c) && deptLAScan cs)

/-- The zero-width split lookahead `(?=^[A-Za-z][A-Za-z\s]*\nReviewer:)`
tested at one (line-start) position. -/
def deptLA : Chars → Bool
  | [] => false
  | c :: cs => isAlphaC c && deptLAScan cs

/-- The `correctionsContent.split(/(?=^[A-Za-z][A-Za-z\s]*\nReviewer:)/m)`:
split before every interior line start whose line begins a department
header.  (A zero-width match at index 0 does not split, per the JS `split`
algorithm.) -/
def splitDeptGo (acc : Chars) : Chars → List Chars
  | [] => [acc.reverse]
  | c :: cs =>
    if c = '\n' && deptLA cs then (c :: acc).reverse :: splitDeptGo [] cs
    else splitDeptGo (c :: acc) cs

def splitDept (l : Chars) : List Chars := splitDeptGo [] l

/-- The `/^([A-Za-z][A-Za-z\s]*)\nReviewer:\s*(.+)/m` tried at one line-start
position (case-sensitive: the regex carries only the `m` flag).  The greedy
class run backtracks to the last `\n` that is followed by `Reviewer:`. -/
def deptMatchAt (l : Chars) : Option (Chars × Chars) :=
  match l with
  | c :: cs =>
    if isAlphaC c then
      (greedy0 (fun d => isAlphaC d || isWS d) (fun t =>
        match t with
        | '\n' :: r =>
          match stripLit "Reviewer:".data r with
          | none => none
          | some r1 =>
            (greedy0 isWS (fun r2 =>
              (greedy1 isDot (fun _ => some ()) r2).map Prod.fst) r1).map Prod.snd
        | _ => none) cs).map fun p => (c :: p.1, p.2)
    else none
  | [] => none

/-- Multiline `^`-anchored leftmost search: try the matcher at index 0 and
after every newline. -/
def goBOL {α : Type} (p : Chars → Option α) : Chars → Option α
  | [] => none
  | c :: cs =>
    if c = '\n' then
      match p cs with
      | some a => some a
      | none => goBOL p cs
    else goBOL p cs

def searchBOL {α : Type} (p : Chars → Option α) (l : Chars) : Option α :=
  match p l with
  | some a => some a
  | none => goBOL p l

/-- The `/Email:\s*(.+?)(?:\n|$)/i` at one position. -/
def emailAt (l : Chars) : Option Chars :=
  match stripCI "email:".data l with
  | none => none
  | some r =>
    (greedy0 isWS (lazy1 isDot fun t =>
      if t = [] || t.head? = some '\n' then some () else none) r).map fun p => p.2.1

/-- The `/Phone:\s*(.+?)(?:\n|$)/i` at one position. -/
def phoneFieldAt (l : Chars) : Option Chars :=
  match stripCI "phone:".data l with
  | none => none
  | some r =>
    (greedy0 isWS (lazy1 isDot fun t =>
      if t = [] || t.head? = some '\n' then some () else none) r).map fun p => p.2.1

/-- The item date `(\d{1,2}\/\d{1,2}\/\d{2,4})` at one position: like
`dateAt` but with a two-to-four digit year (greedy, longest first).
Returns the capture and the rest. -/
def dateAt24 (l : Chars) : Option (Chars × Chars) :=
  let d24 : Chars → Option (Chars × Chars) := fun t =>
    let ds := t.takeWhile Char.isDigit
    let k := min 4 ds.length
    if k < 2 then none else some (ds.take k, t.drop k)
  let d12 : Chars → List (Chars × Chars) := fun t =>
    match t with
    | a :: b :: r =>
      if a.isDigit then
        if b.isDigit then [([a, b], r), ([a], b :: r)] else [([a], b :: r)]
      else []
    | [a] => if a.isDigit then [([a], [])] else []
    | [] => []
  (d12 l).firstM fun (mo, r1) =>
    match r1 with
    | '/' :: r2 =>
      (d12 r2).firstM fun (da, r3) =>
        match r3 with
        | '/' :: r4 => (d24 r4).map fun (yr, r5) => (mo ++ '/' :: da ++ '/' :: yr, r5)
        | _ => none
    | _ => none

/-- Lookahead alternative `^\s*\d+\.` evaluated at a body position that is
already at a non-whitespace character (the preceding `\s*` runs were
maximal), so its own `\s*` is empty. -/
def laNum (r : Chars) : Bool :=
  let d := r.takeWhile Char.isDigit
  d ≠ [] && (r.drop d.length).head? = some '.'

/-- Lookahead alternative `^[A-Za-z]+\nReviewer:`. -/
def laRev (r : Chars) : Bool :=
  let a := r.takeWhile isAlphaC
  a ≠ [] &&
    (match r.drop a.length with
     | '\n' :: t => (stripLit "Reviewer:".data t).isSome
     | _ => false)

/-- One match of the item regex
`/^\s*(\d+)\.\s*(?:(\d{1,2}\/\d{1,2}\/\d{2,4})\s*[-–—]?\s*)?([\s\S]*?)(?=^\s*\d+\.|^[A-Za-z]+\nReviewer:|$)/gm`
tried at a line-start position.  Because the flags include `m`, the `$`
lookahead alternative fires at every line end, so a body never crosses a
newline; the `^` alternatives can only fire when the body starts at a line
start (which happens when the maximal `\s*` run ended with a newline).
Returns `(number capture, optional date capture, body)`, the rest of the
input after the match, and whether that rest position is a line start. -/
def itemAt (l : Chars) : Option ((Chars × Option Chars × Chars) × Chars × Bool) :=
  let ws1 := l.takeWhile isWS
  let r1 := l.drop ws1.length
  let g1 := r1.takeWhile Char.isDigit
  if g1 = [] then none
  else
    match r1.drop g1.length with
    | '.' :: r2 =>
      let ws2 := r2.takeWhile isWS
      let r3 := r2.drop ws2.length
      let parsed : Option Chars × Chars × Bool :=
        match dateAt24 r3 with
        | some (cap, rr) =>
          let ws3 := rr.takeWhile isWS
          let rr1 := rr.drop ws3.length
          let dashed : Bool × Chars :=
            match rr1 with
            | c :: t => if c = '-' || c = '–' || c = '—' then (true, t) else (false, rr1)
            | [] => (false, rr1)
          let ws4 := dashed.2.takeWhile isWS
          let rr3 := dashed.2.drop ws4.length
          let pn :=
            if ws4 ≠ [] then ws4.getLast? = some '\n'
            else if dashed.1 then false
            else if ws3 ≠ [] then ws3.getLast? = some '\n'
            else false
          (some cap, rr3, pn)
        | none => (none, r3, ws2 ≠ [] && ws2.getLast? = some '\n')
      let r4 := parsed.2.1
      let prevNL := parsed.2.2
      let bodyEmpty : Bool := prevNL && (laNum r4 || laRev r4)
      let body := if bodyEmpty then [] else r4.takeWhile (· ≠ '\n')
      let rest := if bodyEmpty then r4 else r4.drop body.length
      some ((g1, parsed.1, body), rest, body = [] && prevNL)
    | _ => none

/-- Advance to the next line-start position at which `itemAt` succeeds
(the `g`-flag exec scan). -/
def searchItem : Bool → Chars → Option ((Chars × Option Chars × Chars) × Chars × Bool)
  | atLS, [] => if atLS then itemAt [] else none
  | atLS, c :: cs =>
    match (if atLS then itemAt (c :: cs) else none) with
    | some r => some r
    | none => searchItem (c = '\n') cs

/-- The `while ((itemMatch = itemRegex.exec(block)) !== null)` loop.  Every
match consumes at least its number and dot, so the fuel `|block| + 1` is
never exhausted before the scan ends. -/
def itemsLoop : ℕ → Bool → Chars → List (Chars × Option Chars × Chars)
  | 0, _, _ => []
  | fuel + 1, atLS, l =>
    match searchItem atLS l with
    | none => []
    | some (item, rest, ls) => item :: itemsLoop fuel ls rest

/-- Process one split block: skip it when blank or headerless, otherwise
extract department, reviewer and numbered items (items with an empty
cleaned body are dropped). -/
def parseBlock (block : Chars) : Option CorrectionBlock :=
  if trimWS block = [] then none
  else
    match searchBOL deptMatchAt block with
    | none => none
    | some (g1, g2) =>
      let department := cleanTextS (String.mk g1)
      let reviewerName := cleanTextS (String.mk g2)
      let items := (itemsLoop (block.length + 1) true block).filterMap
        fun (n, d, b) =>
          let itemText := cleanTextS (String.mk b)
          if itemText.data = [] then none
          else
            some { number := natOfDigits n
                   date := match d with
                     | some dc => parseDate (String.mk dc)
                     | none => none
                   text := itemText }
      if items.length > 0 || department.data ≠ [] then
        some { department := department
               reviewer :=
                 { name := orNull reviewerName
                   email := orNull (cleanTextS (String.mk ((searchFrom emailAt block).getD [])))
                   phone := orNull (cleanTextS (String.mk ((searchFrom phoneFieldAt block).getD []))) }
               items := items }
      else none

/-- The `parseCorrections` from the source. -/
def parseCorrections (content : Chars) : List CorrectionBlock :=
  match corrSpan content with
  | none => []
  | some cc => (splitDept cc).filterMap parseBlock

-- ===========================================================================
-- parseApprovalTable
-- ===========================================================================

/-- The `/Approval Table:[\s\S]*?Task Name\s+Task Status\s+Completed Date\s+Task Rev Name([\s\S]*?)(?:General Comments|$)/i`. -/
def apprAt (l : Chars) : Option Chars :=
  match stripCI "approval table:".data l with
  | none => none
  | some r =>
      (lazy0 (fun _ => true) (fun t =>
        match stripCI "task name".data t with
        | none => none
        | some t1 =>
          match wsPlus t1 with
          | none => none
          | some t2 =>
            match stripCI "task status".data t2 with
            | none => none
            | some t3 =>
              match wsPlus t3 with
              | none => none
              | some t4 =>
                match stripCI "completed date".data t4 with
                | none => none
                | some t5 =>
                  match wsPlus t5 with
                  | none => none
                  | some t6 =>
                    match stripCI "task rev name".data t6 with
                    | none => none
                    | some t7 =>
                      (lazy0 (fun _ => true) (fun u =>
                        if isPrefixCI "general comments".data u || u = [] then
                          some () else none) t7).map Prod.fst) r).map Prod.snd

def apprSpan (content : Chars) : Option Chars := searchFrom apprAt content

/-- The closed status vocabulary, in the regex's alternation order
(case-sensitive). -/
def statusList : List String :=
  ["Approved", "Not Required", "Routed for Electronic Review", "Issued",
   "Opt-Out", "Corrections Required", "Finaled", "Close", "Pending"]

/-- The `/^([A-Za-z][A-Za-z\s&\/]+?)\s{2,}(STATUSES)\s+(\d{1,2}\/\d{1,2}\/\d{4})?\s*(.*)$/`
applied to one (newline-free) line: task name, status, optional date, rest
of line. -/
def taskLineAt (line : Chars) : Option (Chars × Chars × Option Chars × Chars) :=
  match line with
  | c :: cs =>
    if isAlphaC c then
      (lazy1 (fun d => isAlphaC d || isWS d || d = '&' || d = '/') (fun t =>
        match t with
        | a :: b :: r =>
          if isWS a && isWS b then statusCont (r.dropWhile isWS) else none
        | _ => none) cs).map fun p => (c :: p.1, p.2)
    else none
  | [] => none
where
  -- status alternation, then `\s+(\d{1,2}\/\d{1,2}\/\d{4})?\s*(.*)$`
  statusCont (r1 : Chars) : Option (Chars × Option Chars × Chars) :=
    (statusList.map fun st =>
      match stripLit st.data r1 with
      | none => none
      | some r2 =>
        match r2 with
        | w :: r3 =>
          if isWS w then
            let r4 := r3.dropWhile isWS
            match dateCapture r4 with
            | some (dc, r5) => some (st.data, some dc, r5.dropWhile isWS)
            | none => some (st.data, none, r4)
          else none
        | [] => none).firstM (fun o => o)

/-- The `parseApprovalTable` from the source. -/
def parseApprovalTable (content : Chars) : List ApprovalTask :=
  match apprSpan content with
  | none => []
  | some tc =>
    (splitNL tc).filterMap fun line =>
      (taskLineAt line).map fun (g1, st, dc, g4) =>
        { task_name := cleanTextS (String.mk g1)
          status := cleanTextS (String.mk st)
          completed_date := parseDateO ((dc.map String.mk))
          reviewer_name := orNull (cleanTextS (String.mk g4)) }

-- ===========================================================================
-- parseBuildingClassification
-- ===========================================================================

/-- The `/Building Classification:[\s\S]*?Occ Class\s+Const Type\s+Square Feet\s+Occ Load\s+Use Description([\s\S]*?)(?:Sprinkler|Comment:|Required Corrections)/i`. -/
def bcAt (l : Chars) : Option Chars :=
  match stripCI "building classification:".data l with
  | none => none
  | some r =>
      (lazy0 (fun _ => true) (fun t =>
        match stripCI "occ class".data t with
        | none => none
        | some t1 =>
          match wsPlus t1 with
          | none => none
          | some t2 =>
            match stripCI "const type".data t2 with
            | none => none
            | some t3 =>
              match wsPlus t3 with
              | none => none
              | some t4 =>
                match stripCI "square feet".data t4 with
                | none => none
                | some t5 =>
                  match wsPlus t5 with
                  | none => none
                  | some t6 =>
                    match stripCI "occ load".data t6 with
                    | none => none
                    | some t7 =>
                      match wsPlus t7 with
                      | none => none
                      | some t8 =>
                        match stripCI "use description".data t8 with
                        | none => none
                        | some t9 =>
                          (lazy0 (fun _ => true) (fun u =>
                            if isPrefixCI "sprinkler".data u ||
                                isPrefixCI "comment:".data u ||
                                isPrefixCI "required corrections".data u then
                              some () else none) t9).map Prod.fst) r).map Prod.snd

def bcSpan (content : Chars) : Option Chars := searchFrom bcAt content

/-- Construction-type alternation of the row regex, in source order
(case-sensitive). -/
def constTypes : List String := ["VB", "VA", "IIIA", "IIIB", "IIA", "IIB", "IA", "IB"]

/-- Backtracking options for `([RU]-?\d*|U)`: dash-then-digits (longest
digits first), digits only, then the bare-`U` alternative. -/
def occOpts (c : Char) (cs : Chars) : List (Chars × Chars) :=
  let digOpts : Chars → Chars → List (Chars × Chars) := fun pre t =>
    let ds := t.takeWhile Char.isDigit
    (List.range (ds.length + 1)).reverse.map fun k => (pre ++ ds.take k, t.drop k)
  (match cs with
   | '-' :: t => digOpts [c, '-'] t
   | _ => []) ++ digOpts [c] cs ++ (if c = 'U' then [([c], cs)] else [])

/-- One row of the classification table:
`/([RU]-?\d*|U)\s+(TYPES)\s+(\d+)\s*(\d*)\s+([A-Za-z\s\/]+)/g` at one
position.  Returns the five captures and the rest of the input. -/
def rowAt (l : Chars) : Option ((Chars × Chars × Chars × Chars × Chars) × Chars) :=
  match l with
  | c :: cs =>
    if c = 'R' || c = 'U' then
      (occOpts c cs).firstM fun (occ, r) =>
        match wsPlus r with
        | none => none
        | some r1 =>
          (constTypes.map fun ty =>
            match stripLit ty.data r1 with
            | none => none
            | some r2 =>
              match wsPlus r2 with
              | none => none
              | some r3 =>
                let g3 := r3.takeWhile Char.isDigit
                if g3 = [] then none
                else
                  let r4 := r3.drop g3.length
                  ((greedy0 isWS (fun r5 =>
                    greedy0 Char.isDigit (fun r6 =>
                      (greedy1 isWS (fun r7 =>
                        greedy1 (fun d => isAlphaC d || isWS d || d = '/')
                          (fun rst => some rst) r7) r6).map Prod.snd) r5) r4).map
                    fun p => ((occ, ty.data, g3, p.2.1, p.2.2.1), p.2.2.2))).firstM
            (fun o => o)
    else none
  | [] => none

/-- The `while ((match = rowRegex.exec(tableContent)) !== null)` loop. -/
def rowsLoop : ℕ → Chars → List (Chars × Chars × Chars × Chars × Chars)
  | 0, _ => []
  | fuel + 1, l =>
    match searchFrom rowAt l with
    | none => []
    | some (row, rest) => row :: rowsLoop fuel rest

/-- The `parseBuildingClassification` from the source. -/
def parseBuildingClassification (content : Chars) : List BuildingClass :=
  match bcSpan content with
  | none => []
  | some tc =>
    (rowsLoop (tc.length + 1) tc).map fun (occ, ty, g3, g4, g5) =>
      { occupancy_class := String.mk (trimWS occ)
        construction_type := String.mk (trimWS ty)
        square_feet := parseNumber (String.mk g3)
        occupancy_load := if g4 ≠ [] then parseNumber (String.mk g4) else none
        use_description := cleanTextS (String.mk g5) }

-- ===========================================================================
-- parseThirdPartyReview
-- ===========================================================================

/-- The `/INFORMATION BLOCK([\s\S]*?)(?:BUILDING|ELECTRICAL|$)/i`. -/
def infoAt (l : Chars) : Option Chars :=
  match stripCI "information block".data l with
  | none => none
  | some r =>
    (lazy0 (fun _ => true) (fun t =>
      if isPrefixCI "building".data t || isPrefixCI "electrical".data t ||
          t = [] then some () else none) r).map Prod.fst

def infoSpan (content : Chars) : Option Chars := searchFrom infoAt content

/-- The `/Plan Review Performed On:\s*(\d{1,2}\/\d{1,2}\/\d{4})/i` at one
position. -/
def tpDateAt (l : Chars) : Option Chars :=
  match stripCI "plan review performed on:".data l with
  | none => none
  | some r => (dateCapture (r.dropWhile isWS)).map Prod.fst

/-- The `/By:\s*([^\d\n]+)/i` at one position (the capture class includes
whitespace, so the `\s*` backtracks into it). -/
def byAt (l : Chars) : Option Chars :=
  match stripCI "by:".data l with
  | none => none
  | some r =>
    (greedy0 isWS (fun r1 =>
      (greedy1 (fun c => !(c.isDigit || c = '\n')) (fun _ => some ()) r1).map
        Prod.fst) r).map Prod.snd

/-- The `/Name of Tenant:\s*(.+?)(?:\n|$)/i` at one position. -/
def tenantAt (l : Chars) : Option Chars :=
  match stripCI "name of tenant:".data l with
  | none => none
  | some r =>
    (greedy0 isWS (lazy1 isDot fun t =>
      if t = [] || t.head? = some '\n' then some () else none) r).map fun p => p.2.1

/-- The `parseThirdPartyReview` from the source.  Company attribution is a
document-wide scan for exact brand markers. -/
def parseThirdPartyReview (content : Chars) : Option ThirdPartyReview :=
  match infoSpan content with
  | none => none
  | some ic =>
    let dateM := searchFrom tpDateAt ic
    let byM := searchFrom byAt ic
    let tenantM := searchFrom tenantAt ic
    let company : Option String :=
      if containsLit "METRO CODE".data content ||
          containsLit "metrocode.com".data content then some "Metro Code Analysis"
      else if containsLit "NORTH TEXAS".data content ||
          containsLit "ntispros.com".data content then
        some "North Texas Inspection Services"
      else none
    if dateM.isNone && byM.isNone && tenantM.isNone then none
    else
      some { company := company
             plan_review_date := parseDateO (optCapture dateM)
             reviewed_by := orNull (cleanTextS (String.mk (byM.getD [])))
             tenant_builder := orNull (cleanTextS (String.mk (tenantM.getD []))) }

-- ===========================================================================
-- parsePermitComments (the record assembler) and the CSV derived columns
-- ===========================================================================

/-- The `parsePermitComments` from the source: assemble the full record.  Every
section parser is total; no document content is rejected. -/
def parsePermitComments (content : String) (includeRaw : Bool) : PermitComments :=
  let cd := content.data
  { application := (parseHeader cd).1
    property := (parseHeader cd).2
    description_of_work := parseDescriptionOfWork cd
    applicant := (parseApplicantOwner cd).1
    owner := (parseApplicantOwner cd).2
    building_classification := parseBuildingClassification cd
    corrections := parseCorrections cd
    approval_tasks := parseApprovalTable cd
    zoning_review := parseZoningReview cd
    third_party_review := parseThirdPartyReview cd
    raw_text := if includeRaw then some content else none }

/-- The `p.corrections.map(c => c.department.toLowerCase())` from `toCSV`. -/
def correctionDepts (p : PermitComments) : List String :=
  p.corrections.map fun c => lowerStr c.department

/-- The `correctionDepts.includes(dept)` — the derived CSV booleans. -/
def hasDeptCorrections (p : PermitComments) (dept : String) : Bool :=
  (correctionDepts p).contains dept

/-- The `p.corrections.reduce((sum, c) => sum + c.items.length, 0)` — the CSV
`correction_count` column. -/
def totalCorrectionItems (p : PermitComments) : ℕ :=
  p.corrections.foldl (fun sum c => sum + c.items.length) 0

-- ===========================================================================
-- Invariant predicates and concrete demonstration documents
-- ===========================================================================

/-- A DimensionalValue-typed field is null or has a non-null side. -/
def dvOK (o : Option DimensionalValue) : Prop :=
  ∀ d ∈ o, d.maximum ≠ none ∨ d.provided ≠ none

/-- The DimensionalValue invariant over a whole optional zoning review. -/
def zrDVOK (o : Option ZoningReview) : Prop :=
  ∀ zr ∈ o,
    dvOK zr.lot_coverage ∧ dvOK zr.height ∧ dvOK zr.lot_width ∧
    dvOK zr.driveway_coverage ∧
    ∀ sb ∈ zr.setbacks,
      dvOK sb.front ∧ dvOK sb.side_left ∧ dvOK sb.side_right ∧ dvOK sb.rear

/-- The document of the C4 counterexample: a department block whose printed
item numbers are not strictly increasing. -/
def nonIncreasingDoc : String :=
  "Required Corrections:\nWater\nReviewer: Bob\n1. foo\n1. bar\nApproval Table:"

/-- A block whose printed item numbers do strictly increase. -/
def incItemsBlock : String := "Water\nReviewer: Bob\n1. aa\n2. bb\n"

/-- Demonstration document for the C8 cascade: variant 1 and variant 3 both
match, with different provided-percent captures (19 vs 30). -/
def lotCovDemo : String := "Lot coverage: 55% maximum at 30% (Provided 19%)"

/-- The two-department example document of C9. -/
def twoBlockDoc : String :=
  "Required Corrections:\nWater\nReviewer: A\n1. fix pipe\n2. fix valve\nZoning\nReviewer: B\n1. fix setback\n2. fix fence\nApproval Table:"

/-- A zoning section holding the example front-setback line of the spec. -/
def frontZoningDoc : String :=
  "Zoning Plans Exam Front: 20' minimum (Provided 26' 8\") end ZONING"

-- ===========================================================================
-- Generic search lemmas
-- ===========================================================================

theorem searchFrom_of_head {α : Type} {p : Chars → Option α} {l : Chars} {a : α}
    (h : p l = some a) : searchFrom p l = some a := by
  cases l with
  | nil => simpa [searchFrom] using h
  | cons c cs => simp [searchFrom, h]

theorem exists_of_searchFrom {α : Type} {p : Chars → Option α} :
    ∀ {l : Chars} {a : α}, searchFrom p l = some a → ∃ t, p t = some a := by
  intro l
  induction l with
  | nil => intro a h; exact ⟨[], h⟩
  | cons c cs ih =>
    intro a h
    unfold searchFrom at h
    cases hp : p (c :: cs) with
    | some b =>
      rw [hp] at h
      exact ⟨c :: cs, hp.trans h⟩
    | none => rw [hp] at h; exact ih h

theorem searchFrom_eq_none {α : Type} {p : Chars → Option α} :
    ∀ {l : Chars}, (∀ t, t <:+ l → p t = none) → searchFrom p l = none := by
  intro l
  induction l with
  | nil => intro h; exact h [] List.suffix_rfl
  | cons c cs ih =>
    intro h
    unfold searchFrom
    rw [h (c :: cs) List.suffix_rfl]
    exact ih fun t ht => h t (ht.trans (List.suffix_cons c cs))

theorem not_containsCI_prefixes {pat l : Chars} (h : containsCI pat l = false) :
    ∀ t, t <:+ l → isPrefixCI pat t = false := by
  intro t ht
  unfold containsCI at h
  rw [List.any_eq_false] at h
  simpa using h t ((List.mem_tails t l).mpr ht)

theorem stripCI_eq_none_of {pat t : Chars} (h : isPrefixCI pat t = false) :
    stripCI pat t = none := by
  cases hs : stripCI pat t with
  | none => rfl
  | some r => unfold isPrefixCI at h; rw [hs] at h; cases h

theorem zoneAt_eq_none_of {l : Chars}
    (h : isPrefixCI "zoning plans exam".data l = false) : zoneAt l = none := by
  unfold zoneAt
  rw [stripCI_eq_none_of h]

theorem corrAt_eq_none_of {l : Chars}
    (h : isPrefixCI "required corrections:".data l = false) : corrAt l = none := by
  unfold corrAt
  rw [stripCI_eq_none_of h]

theorem apprAt_eq_none_of {l : Chars}
    (h : isPrefixCI "approval table:".data l = false) : apprAt l = none := by
  unfold apprAt
  rw [stripCI_eq_none_of h]

-- ===========================================================================
-- Claim theorems
-- ===========================================================================

theorem dvOK_mkDV (p : Option JQ × Option JQ) : dvOK (mkDV p) := by
  unfold mkDV
  split
  · rename_i h
    intro d hd
    rw [Option.mem_def, Option.some_inj] at hd
    subst hd
    rcases Bool.or_eq_true_iff.mp h with h1 | h1
    · exact Or.inl (Option.isSome_iff_ne_none.mp h1)
    · exact Or.inr (Option.isSome_iff_ne_none.mp h1)
  · intro d hd
    cases hd

/-- C3: for every input document, every DimensionalValue-typed field of the
parsed zoning review (lot coverage, height, lot width, driveway coverage and
the four setback directions) is either null or has at least one non-null
side; a value with both sides null is never materialized. -/
theorem zoning_dv_never_both_null (content : Chars) :
    zrDVOK (parseZoningReview content) := by
  unfold parseZoningReview
  cases h : zoningSpan content with
  | none => intro zr hzr; cases hzr
  | some zc =>
    intro zr hzr
    rw [Option.mem_def, Option.some_inj] at hzr
    subst hzr
    refine ⟨dvOK_mkDV _, dvOK_mkDV _, dvOK_mkDV _, dvOK_mkDV _, ?_⟩
    intro sb hsb
    rw [Option.mem_def, Option.some_inj] at hsb
    subst hsb
    exact ⟨dvOK_mkDV _, dvOK_mkDV _, dvOK_mkDV _, dvOK_mkDV _⟩

/-- C5: when a section anchor is absent from the document, the corresponding
entity resolves to null or empty (and, the embedding being total, no
exception can arise): no case-insensitive occurrence of "Zoning Plans Exam"
gives `zoning_review = null`, none of "Required Corrections:" gives
`corrections = []`, and none of "Approval Table:" gives
`approval_tasks = []`. -/
theorem missing_anchor_null_or_empty (content : Chars) :
    (containsCI "zoning plans exam".data content = false →
      parseZoningReview content = none) ∧
    (containsCI "required corrections:".data content = false →
      parseCorrections content = []) ∧
    (containsCI "approval table:".data content = false →
      parseApprovalTable content = []) := by
  refine ⟨?_, ?_, ?_⟩
  · intro h
    have hz : zoningSpan content = none :=
      searchFrom_eq_none fun t ht => zoneAt_eq_none_of (not_containsCI_prefixes h t ht)
    unfold parseZoningReview
    rw [hz]
  · intro h
    have hc : corrSpan content = none :=
      searchFrom_eq_none fun t ht => corrAt_eq_none_of (not_containsCI_prefixes h t ht)
    unfold parseCorrections
    rw [hc]
  · intro h
    have ha : apprSpan content = none :=
      searchFrom_eq_none fun t ht => apprAt_eq_none_of (not_containsCI_prefixes h t ht)
    unfold parseApprovalTable
    rw [ha]

/-- Witness for the missing-anchor theorem at a concrete anchorless document. -/
theorem missing_anchor_null_or_empty_witness :
    parseZoningReview "hello world".data = none ∧
    parseCorrections "hello world".data = [] ∧
    parseApprovalTable "hello world".data = [] :=
  ⟨(missing_anchor_null_or_empty "hello world".data).1 (by decide),
   (missing_anchor_null_or_empty "hello world".data).2.1 (by decide),
   (missing_anchor_null_or_empty "hello world".data).2.2 (by decide)⟩

theorem takeWhile1_nonempty {p : Char → Bool} {l g r : Chars}
    (h : takeWhile1 p l = some (g, r)) : g ≠ [] := by
  simp only [takeWhile1] at h
  split at h
  · cases h
  · rename_i hne
    rw [Option.some_inj, Prod.mk.injEq] at h
    exact h.1 ▸ hne

theorem lotBlockAt_captures_nonempty :
    ∀ {l : Chars} {g : Chars × Chars}, lotBlockAt l = some g → g.1 ≠ [] ∧ g.2 ≠ [] := by
  intro l g h
  unfold lotBlockAt at h
  split at h
  · cases h
  · split at h
    · cases h
    · split at h
      · split at h
        · cases h
        · rw [Option.some_inj] at h
          subst h
          rename_i o c heqS x1 g1 r1 heq2 x2 r2 heq1 x3 g2 r3 heq3
          exact ⟨takeWhile1_nonempty heq2, takeWhile1_nonempty heq3⟩
      · cases h

/-- C10: `property.lot` and `property.block` are extracted from the single
Lot/Block match — both null or both non-null, never one without the other. -/
theorem lot_block_paired (content : Chars) :
    ((parseHeader content).2.lot = none ∧ (parseHeader content).2.block = none) ∨
    ((parseHeader content).2.lot ≠ none ∧ (parseHeader content).2.block ≠ none) := by
  unfold parseHeader
  cases hs : searchFrom lotBlockAt content with
  | none => left; exact ⟨rfl, rfl⟩
  | some g =>
    right
    obtain ⟨t, ht⟩ := exists_of_searchFrom hs
    obtain ⟨h1, h2⟩ := lotBlockAt_captures_nonempty ht
    constructor
    · simp [optCapture, orNull, h1]
    · simp [optCapture, orNull, h2]

/-- C2: for every input string, including the empty string, the assembler
terminates and returns a PermitComments record built from the section
parsers, with no validity gate and no exception (the embedding is a total
function); on the empty string every field is null/empty, yet a record is
still produced. -/
theorem parse_always_returns_record :
    (∀ (content : String) (raw : Bool),
      parsePermitComments content raw =
        { application := (parseHeader content.data).1
          property := (parseHeader content.data).2
          description_of_work := parseDescriptionOfWork content.data
          applicant := (parseApplicantOwner content.data).1
          owner := (parseApplicantOwner content.data).2
          building_classification := parseBuildingClassification content.data
          corrections := parseCorrections content.data
          approval_tasks := parseApprovalTable content.data
          zoning_review := parseZoningReview content.data
          third_party_review := parseThirdPartyReview content.data
          raw_text := if raw then some content else none }) ∧
    parsePermitComments "" false =
      { application := { number := "", status := "", date_submitted := none, date_issued := none }
        property := { address := "", parcel := none, zoning := none,
                      subdivision := none, lot := none, block := none }
        description_of_work := none
        applicant := { name := none, address := none, phone := none }
        owner := { name := none, address := none, phone := none }
        building_classification := []
        corrections := []
        approval_tasks := []
        zoning_review := none
        third_party_review := none
        raw_text := none } :=
  ⟨fun _ _ => rfl, by decide⟩

/-- C1 counterexample: on a document whose whole text is "Zoning Plans Exam"
no setback or parking child field is recovered, yet the parser materializes
`setbacks` and `parking` as structs of all-null children inside a
`zoning_review` that itself holds only null children — absence does NOT
propagate to these parent entities. -/
theorem setbacks_parking_materialized_all_null :
    (parseZoningReview "Zoning Plans Exam".data).map (fun zr => (zr.setbacks, zr.parking)) =
      some (some ⟨none, none, none, none⟩, some ⟨none, none, none⟩) := by decide

/-- C1 (amended): absence propagates to `zoning_review` (absent anchor ⇒
null), to the three list-typed entities (absent section ⇒ empty sequence,
never null), and to `third_party_review` (no child field matched ⇒ null);
but whenever the zoning section is present, the `Setbacks` and `Parking`
components are always materialized structs, possibly with every child
null. -/
theorem absence_propagation_amended (content : Chars) :
    (∀ zr, parseZoningReview content = some zr →
       zr.setbacks.isSome ∧ zr.parking.isSome) ∧
    (corrSpan content = none → parseCorrections content = []) ∧
    (apprSpan content = none → parseApprovalTable content = []) ∧
    (bcSpan content = none → parseBuildingClassification content = []) ∧
    (∀ ic, infoSpan content = some ic →
       searchFrom tpDateAt ic = none → searchFrom byAt ic = none →
       searchFrom tenantAt ic = none → parseThirdPartyReview content = none) := by
  refine ⟨?_, ?_, ?_, ?_, ?_⟩
  · intro zr h
    unfold parseZoningReview at h
    cases hz : zoningSpan content with
    | none => rw [hz] at h; cases h
    | some zc =>
      rw [hz] at h
      rw [Option.some_inj] at h
      subst h
      exact ⟨rfl, rfl⟩
  · intro h
    unfold parseCorrections
    rw [h]
  · intro h
    unfold parseApprovalTable
    rw [h]
  · intro h
    unfold parseBuildingClassification
    rw [h]
  · intro ic hic hd hb ht
    unfold parseThirdPartyReview
    rw [hic]
    simp [hd, hb, ht]

/-- Witness for the amended absence-propagation theorem at concrete
documents. -/
theorem absence_propagation_amended_witness :
    ((parseZoningReview "Zoning Plans Exam".data).map
        (fun zr => (zr.setbacks.isSome, zr.parking.isSome)) = some (true, true)) ∧
    parseCorrections "x".data = [] ∧
    parseApprovalTable "x".data = [] ∧
    parseBuildingClassification "x".data = [] ∧
    parseThirdPartyReview "INFORMATION BLOCK".data = none := by
  have h2 := absence_propagation_amended "x".data
  have h3 := absence_propagation_amended "INFORMATION BLOCK".data
  refine ⟨?_, h2.2.1 (by decide), h2.2.2.1 (by decide), h2.2.2.2.1 (by decide),
    h3.2.2.2.2 [] (by decide) (by decide) (by decide) (by decide)⟩
  cases hq : parseZoningReview "Zoning Plans Exam".data with
  | none => exact absurd hq (by decide)
  | some zr =>
    have hsp := (absence_propagation_amended "Zoning Plans Exam".data).1 zr hq
    simp [hsp.1, hsp.2]

/-- C4 counterexample: the parser keeps item numbers exactly as printed, so
a block printing "1." twice parses to the non-strictly-increasing number
sequence [1, 1]. -/
theorem corrections_numbers_not_strictly_increasing :
    ((parseCorrections nonIncreasingDoc.data).map
        (fun b => b.items.map CorrectionItem.number)) = [[1, 1]] ∧
      ¬ List.Pairwise (fun a b : ℕ => a < b) [1, 1] :=
  ⟨by decide, by decide⟩

theorem map_number_filterMap_sublist {α : Type} (f : α → Option CorrectionItem)
    (g : α → ℕ) (hf : ∀ a b, f a = some b → b.number = g a) (l : List α) :
    List.Sublist ((l.filterMap f).map CorrectionItem.number) (l.map g) := by
  induction l with
  | nil => simp
  | cons a l ih =>
    cases hfa : f a with
    | none =>
      rw [List.filterMap_cons, hfa, List.map_cons]
      exact ih.cons _
    | some b =>
      rw [List.filterMap_cons, hfa, List.map_cons, List.map_cons, hf a b hfa]
      exact ih.cons₂ _

/-- C4 (amended): a correction item keeps its number exactly as printed in
the source (no re-numbering), and the parsed items of a block are, in
source order, the non-empty-bodied subsequence of the matched numbered
items; hence the parsed numbers strictly increase whenever the printed
numbers of the block's matched items do — the parser preserves, but does
not enforce, the increase. -/
theorem item_numbers_preserved_amended (block : Chars)
    (hp : List.Pairwise (fun a b : ℕ => a < b)
      ((itemsLoop (block.length + 1) true block).map (fun r => natOfDigits r.1))) :
    ∀ cb, parseBlock block = some cb →
      List.Pairwise (fun a b : ℕ => a < b) (cb.items.map CorrectionItem.number) := by
  intro cb hcb
  unfold parseBlock at hcb
  split at hcb
  · cases hcb
  · split at hcb
    · cases hcb
    · dsimp only at hcb
      split at hcb
      · rw [Option.some_inj] at hcb
        subst hcb
        refine List.Pairwise.sublist ?_ hp
        refine map_number_filterMap_sublist _ _ ?_ _
        intro a b hab
        obtain ⟨n, d, bo⟩ := a
        dsimp only at hab
        split at hab
        · cases hab
        · rw [Option.some_inj] at hab
          subst hab
          rfl
      · cases hcb

/-- Witness for the amended item-number theorem at a concrete block. -/
theorem item_numbers_preserved_amended_witness :
    ((parseBlock incItemsBlock.data).map
        (fun cb => cb.items.map CorrectionItem.number)).getD [] = [1, 2] ∧
    List.Pairwise (fun a b : ℕ => a < b)
      (((parseBlock incItemsBlock.data).map
          (fun cb => cb.items.map CorrectionItem.number)).getD []) := by
  constructor
  · decide
  · cases hq : parseBlock incItemsBlock.data with
    | none => simp
    | some cb =>
      have h := item_numbers_preserved_amended incItemsBlock.data (by decide) cb hq
      simpa [hq] using h

/-- C8: the lot-coverage field tries its three variants in fixed priority
order and takes the captures of the first that matches; when variant 1
matches, the output is computed from variant 1's captures alone — shown
concretely on a text where variant 3 captures a different value (30) that
is never used. -/
theorem lot_coverage_cascade_first_match_wins :
    (∀ (zc a b : Chars), searchFrom lotCov1At zc = some (a, b) →
       cascade2 parsePercent [lotCov1At, lotCov2At, lotCov3At] zc =
         (parsePercent (String.mk a), parsePercent (String.mk b))) ∧
    searchFrom lotCov1At lotCovDemo.data = some ("55".data, "19".data) ∧
    searchFrom lotCov3At lotCovDemo.data = some ("55".data, "30".data) ∧
    cascade2 parsePercent [lotCov1At, lotCov2At, lotCov3At] lotCovDemo.data =
      (some 55, some 19) := by
  refine ⟨?_, by decide, by decide, by decide⟩
  intro zc a b h
  unfold cascade2
  rw [h]

/-- Witness for the cascade theorem: the first-variant rule applied at the
demonstration text. -/
theorem lot_coverage_cascade_witness :
    cascade2 parsePercent [lotCov1At, lotCov2At, lotCov3At] lotCovDemo.data =
      (parsePercent (String.mk "55".data), parsePercent (String.mk "19".data)) :=
  lot_coverage_cascade_first_match_wins.1 lotCovDemo.data "55".data "19".data (by decide)

theorem foldl_add_items (l : List CorrectionBlock) :
    ∀ n : ℕ, l.foldl (fun s c => s + c.items.length) n =
      n + (l.map (fun c => c.items.length)).sum := by
  induction l with
  | nil => intro n; simp
  | cons c cs ih =>
    intro n
    simp only [List.foldl_cons, List.map_cons, List.sum_cons, ih]
    omega

set_option maxRecDepth 80000 in
/-- C9: in the flat output, `has_water_corrections` (resp. zoning, pard) is
true exactly when some parsed block's department equals the name after
lowercasing, and `correction_count` is the total number of items over all
blocks; the two-department two-item example yields 2 blocks, 4 items, and
`has_water_corrections = true`. -/
theorem csv_corrections_columns :
    (∀ p : PermitComments,
      (hasDeptCorrections p "water" = true ↔
        ∃ c ∈ p.corrections, lowerStr c.department = "water") ∧
      (hasDeptCorrections p "zoning" = true ↔
        ∃ c ∈ p.corrections, lowerStr c.department = "zoning") ∧
      (hasDeptCorrections p "pard" = true ↔
        ∃ c ∈ p.corrections, lowerStr c.department = "pard") ∧
      totalCorrectionItems p = (p.corrections.map (fun c => c.items.length)).sum) ∧
    ((parsePermitComments twoBlockDoc false).corrections.length = 2 ∧
     totalCorrectionItems (parsePermitComments twoBlockDoc false) = 4 ∧
     hasDeptCorrections (parsePermitComments twoBlockDoc false) "water" = true) := by
  constructor
  · intro p
    refine ⟨?_, ?_, ?_, ?_⟩
    · simp [hasDeptCorrections, correctionDepts, List.contains, List.elem_iff, List.mem_map]
    · simp [hasDeptCorrections, correctionDepts, List.contains, List.elem_iff, List.mem_map]
    · simp [hasDeptCorrections, correctionDepts, List.contains, List.elem_iff, List.mem_map]
    · simpa using foldl_add_items p.corrections 0
  · refine ⟨?_, ?_, ?_⟩ <;> decide

-- ===========================================================================
-- Character/shape lemmas for the value-normalizer claims
-- ===========================================================================

theorem not_isWS_of_isDigit {c : Char} (h : c.isDigit = true) : isWS c = false := by
  by_contra hw
  rw [Bool.not_eq_false] at hw
  simp only [isWS, Bool.or_eq_true, decide_eq_true_eq] at hw
  rcases hw with ((((rfl | rfl) | rfl) | rfl) | rfl) | rfl <;> exact absurd h (by decide)

theorem numCapture_digits {ds : Chars} {c : Char} {rest : Chars}
    (hne : ds ≠ []) (hd : ∀ x ∈ ds, x.isDigit) (hc : c.isDigit = false)
    (hdot : c ≠ '.') :
    numCapture (ds ++ c :: rest) = some (ds, c :: rest) := by
  have ht : (ds ++ c :: rest).takeWhile Char.isDigit = ds := by
    rw [List.takeWhile_append_of_pos hd, List.takeWhile_cons_of_neg (by simp [hc]),
      List.append_nil]
  simp only [numCapture]
  rw [ht, if_neg hne, List.drop_left]
  split
  · rename_i r2 heq
    rw [List.cons.injEq] at heq
    exact absurd heq.1 hdot
  · rfl

theorem numCapture_all_digits {ds : Chars} (hne : ds ≠ []) (hd : ∀ x ∈ ds, x.isDigit) :
    numCapture ds = some (ds, []) := by
  simp only [numCapture]
  rw [List.takeWhile_eq_self_iff.mpr hd, if_neg hne, List.drop_length]

theorem numCapture_decimal {ds fr : Chars} (hne : ds ≠ []) (hd : ∀ x ∈ ds, x.isDigit)
    (hf : fr ≠ []) (hfd : ∀ x ∈ fr, x.isDigit) :
    numCapture (ds ++ '.' :: fr) = some (ds ++ '.' :: fr, []) := by
  have ht : (ds ++ '.' :: fr).takeWhile Char.isDigit = ds := by
    rw [List.takeWhile_append_of_pos hd, List.takeWhile_cons_of_neg (by decide),
      List.append_nil]
  simp only [numCapture]
  rw [ht, if_neg hne, List.drop_left]
  split
  · rename_i r2 heq
    rw [List.cons.injEq] at heq
    obtain ⟨-, rfl⟩ := heq
    rw [List.takeWhile_eq_self_iff.mpr hfd, if_neg hf, List.drop_length]
  · rename_i hno
    exact absurd rfl (hno fr)

theorem qOfNum_digits {ds : Chars} (hd : ∀ x ∈ ds, x.isDigit) :
    qOfNum ds = JQ.ofN (natOfDigits ds) := by
  simp only [qOfNum]
  rw [List.takeWhile_eq_self_iff.mpr hd, List.drop_length]

theorem qOfNum_decimal {ds fr : Chars} (hd : ∀ x ∈ ds, x.isDigit)
    (hfd : ∀ x ∈ fr, x.isDigit) :
    qOfNum (ds ++ '.' :: fr) = (JQ.ofN (natOfDigits ds)).add (fracOfDigits fr) := by
  have ht : (ds ++ '.' :: fr).takeWhile Char.isDigit = ds := by
    rw [List.takeWhile_append_of_pos hd, List.takeWhile_cons_of_neg (by decide),
      List.append_nil]
  simp only [qOfNum]
  rw [ht, List.drop_left]
  split
  · rename_i fs heq
    rw [List.cons.injEq] at heq
    obtain ⟨-, rfl⟩ := heq
    rw [List.takeWhile_eq_self_iff.mpr hfd]
  · rename_i hno
    exact absurd rfl (hno fr)

theorem dropWhile_isWS_of_head_digit {l : Chars} (hne : l ≠ [])
    (hd : ∀ x ∈ l, x.isDigit) : ∀ {tail : Chars}, (l ++ tail).dropWhile isWS = l ++ tail := by
  intro tail
  cases l with
  | nil => exact absurd rfl hne
  | cons a l =>
    rw [List.cons_append,
      List.dropWhile_cons_of_neg (by simp [not_isWS_of_isDigit (hd a (List.mem_cons_self a l))])]

/-- The feet-and-inches shape: `feetAt` on `F' I"` computes
`F + I/12` (before rounding). -/
theorem feetAt_feet_inches {fd id : Chars} (h1 : fd ≠ []) (h2 : ∀ c ∈ fd, c.isDigit)
    (h3 : id ≠ []) (h4 : ∀ c ∈ id, c.isDigit) :
    feetAt (fd ++ '\'' :: ' ' :: (id ++ ['"'])) =
      some ((qOfNum fd).add ((qOfNum id).divN 12)) := by
  have hnc1 : numCapture (fd ++ '\'' :: ' ' :: (id ++ ['"'])) =
      some (fd, '\'' :: ' ' :: (id ++ ['"'])) :=
    numCapture_digits h1 h2 (by decide) (by decide)
  have hdw : (('\'' : Char) :: ' ' :: (id ++ ['"'])).dropWhile isWS =
      '\'' :: ' ' :: (id ++ ['"']) :=
    List.dropWhile_cons_of_neg (by decide)
  have hdw2 : ((' ' : Char) :: (id ++ ['"'])).dropWhile isWS = id ++ ['"'] := by
    rw [List.dropWhile_cons_of_pos (by decide)]
    exact dropWhile_isWS_of_head_digit h3 h4
  have hnc2 : numCapture (id ++ ['"']) = some (id, ['"']) :=
    numCapture_digits h3 h4 (by decide) (by decide)
  simp only [feetAt, hnc1, hdw]
  rw [if_pos (by decide), hdw2, hnc2]

/-- The `feetAt` on a bare digit string. -/
theorem feetAt_bare {fd : Chars} (h1 : fd ≠ []) (h2 : ∀ c ∈ fd, c.isDigit) :
    feetAt fd = some (qOfNum fd) := by
  simp only [feetAt, numCapture_all_digits h1 h2]
  simp [numCapture]

/-- The `feetAt` on a bare decimal string. -/
theorem feetAt_decimal {fd fr : Chars} (h1 : fd ≠ []) (h2 : ∀ c ∈ fd, c.isDigit)
    (h3 : fr ≠ []) (h4 : ∀ c ∈ fr, c.isDigit) :
    feetAt (fd ++ '.' :: fr) = some (qOfNum (fd ++ '.' :: fr)) := by
  simp only [feetAt, numCapture_decimal h1 h2 h3 h4]
  simp [numCapture]

/-- C6: the feet-inches normalizer maps a bare integer `F` to `F` feet, a
bare decimal `F.D` to its decimal-feet value, and `F' I"` to
`feet + inches/12`, each rounded to two decimal places; in particular the
front-setback line `Front: 20' minimum (Provided 26' 8")` of a zoning
section yields the front DimensionalValue maximum 20, provided 26.67. -/
theorem feet_inches_normalizer :
    (∀ fd : Chars, fd ≠ [] → (∀ c ∈ fd, c.isDigit) →
      parseFeet (String.mk fd) = some (round2 (JQ.ofN (natOfDigits fd)))) ∧
    (∀ fd fr : Chars, fd ≠ [] → (∀ c ∈ fd, c.isDigit) → fr ≠ [] → (∀ c ∈ fr, c.isDigit) →
      parseFeet (String.mk (fd ++ '.' :: fr)) =
        some (round2 ((JQ.ofN (natOfDigits fd)).add (fracOfDigits fr)))) ∧
    (∀ fd id : Chars, fd ≠ [] → (∀ c ∈ fd, c.isDigit) → id ≠ [] → (∀ c ∈ id, c.isDigit) →
      parseFeet (String.mk (fd ++ '\'' :: ' ' :: (id ++ ['"']))) =
        some (round2 ((JQ.ofN (natOfDigits fd)).add ((JQ.ofN (natOfDigits id)).divN 12)))) ∧
    parseFeet "26' 8\"" = some ⟨2667, 100⟩ ∧
    ((parseZoningReview frontZoningDoc.data).map (fun zr => zr.setbacks.map Setbacks.front) =
      some (some (some ⟨some 20, some ⟨2667, 100⟩⟩))) := by
  refine ⟨?_, ?_, ?_, by decide, by decide⟩
  · intro fd h1 h2
    unfold parseFeet
    rw [searchFrom_of_head (feetAt_bare h1 h2), qOfNum_digits h2]
    rfl
  · intro fd fr h1 h2 h3 h4
    unfold parseFeet
    rw [searchFrom_of_head (feetAt_decimal h1 h2 h3 h4), qOfNum_decimal h2 h4]
    rfl
  · intro fd id h1 h2 h3 h4
    unfold parseFeet
    rw [searchFrom_of_head (feetAt_feet_inches h1 h2 h3 h4), qOfNum_digits h2,
      qOfNum_digits h4]
    rfl

/-- Witness for the feet-inches normalizer at 20, 26.5 and 26' 8". -/
theorem feet_inches_normalizer_witness :
    parseFeet (String.mk "20".data) = some (round2 (JQ.ofN (natOfDigits "20".data))) ∧
    parseFeet (String.mk ("26".data ++ '.' :: "5".data)) =
      some (round2 ((JQ.ofN (natOfDigits "26".data)).add (fracOfDigits "5".data))) ∧
    parseFeet (String.mk ("26".data ++ '\'' :: ' ' :: ("8".data ++ ['"']))) =
      some (round2 ((JQ.ofN (natOfDigits "26".data)).add
        ((JQ.ofN (natOfDigits "8".data)).divN 12))) :=
  ⟨feet_inches_normalizer.1 "20".data (by decide) (by decide),
   feet_inches_normalizer.2.1 "26".data "5".data (by decide) (by decide) (by decide) (by decide),
   feet_inches_normalizer.2.2.1 "26".data "8".data (by decide) (by decide) (by decide) (by decide)⟩

theorem searchFrom_eq_none_iff {α : Type} {p : Chars → Option α} :
    ∀ {l : Chars}, searchFrom p l = none ↔ ∀ t, t <:+ l → p t = none := by
  intro l
  induction l with
  | nil =>
    constructor
    · intro h t ht
      rw [List.suffix_nil] at ht
      subst ht
      exact h
    · intro h
      exact h [] List.suffix_rfl
  | cons c cs ih =>
    constructor
    · intro h t ht
      unfold searchFrom at h
      cases hp : p (c :: cs) with
      | some a => rw [hp] at h; cases h
      | none =>
        rw [hp] at h
        rcases List.suffix_cons_iff.mp ht with rfl | ht'
        · exact hp
        · exact ih.mp h t ht'
    · intro h
      unfold searchFrom
      rw [h (c :: cs) List.suffix_rfl]
      exact ih.mpr fun t ht => h t (ht.trans (List.suffix_cons c cs))

/-- The date pattern accepts exactly the `M/D/YYYY` shapes. -/
theorem dateAt_shape {mo da yr : Chars}
    (hm : mo.length = 1 ∨ mo.length = 2) (hmd : ∀ c ∈ mo, c.isDigit)
    (hd : da.length = 1 ∨ da.length = 2) (hdd : ∀ c ∈ da, c.isDigit)
    (hy : yr.length = 4) (hyd : ∀ c ∈ yr, c.isDigit) :
    dateAt (mo ++ '/' :: (da ++ '/' :: yr)) = some (mo, da, yr) := by
  have hy4 : ∃ a b c d, yr = [a, b, c, d] := by
    rcases yr with _ | ⟨a, t⟩
    · simp at hy
    · rw [List.length_cons] at hy
      have h3 : t.length = 3 := by omega
      obtain ⟨b, c, d, rfl⟩ := List.length_eq_three.mp h3
      exact ⟨a, b, c, d, rfl⟩
  obtain ⟨y1, y2, y3, y4, rfl⟩ := hy4
  have hsl : ('/' : Char).isDigit = false := by decide
  rcases hm with hm | hm
  · obtain ⟨a, rfl⟩ := List.length_eq_one.mp hm
    rcases hd with hd | hd
    · obtain ⟨c, rfl⟩ := List.length_eq_one.mp hd
      simp_all [dateAt, d12k, twoD, oneD, fourD, slash, Option.orElse]
    · obtain ⟨c, d, rfl⟩ := List.length_eq_two.mp hd
      simp_all [dateAt, d12k, twoD, oneD, fourD, slash, Option.orElse]
  · obtain ⟨a, b, rfl⟩ := List.length_eq_two.mp hm
    rcases hd with hd | hd
    · obtain ⟨c, rfl⟩ := List.length_eq_one.mp hd
      simp_all [dateAt, d12k, twoD, oneD, fourD, slash, Option.orElse]
    · obtain ⟨c, d, rfl⟩ := List.length_eq_two.mp hd
      simp_all [dateAt, d12k, twoD, oneD, fourD, slash, Option.orElse]

/-- C7: the date normalizer accepts exactly `M/D/YYYY` / `MM/DD/YYYY` and
canonicalizes to `YYYY-MM-DD` with zero-padded month and day; it returns
null on any input in which the date pattern matches at no position (in
particular on a two-digit-year date such as `12/31/24`); and
"Date Submitted: 3/4/2024" parses to `date_submitted = "2024-03-04"`. -/
theorem date_normalizer :
    (∀ mo da yr : Chars,
      (mo.length = 1 ∨ mo.length = 2) → (∀ c ∈ mo, c.isDigit) →
      (da.length = 1 ∨ da.length = 2) → (∀ c ∈ da, c.isDigit) →
      yr.length = 4 → (∀ c ∈ yr, c.isDigit) →
      parseDate (String.mk (mo ++ '/' :: (da ++ '/' :: yr))) =
        some (String.mk (yr ++ '-' :: (pad2 mo ++ '-' :: pad2 da)))) ∧
    (∀ s : String, parseDate s = none ↔ ∀ t, t <:+ s.data → dateAt t = none) ∧
    parseDate "12/31/24" = none ∧
    (parseHeader "Date Submitted: 3/4/2024".data).1.date_submitted = some "2024-03-04" := by
  refine ⟨?_, ?_, by decide, by decide⟩
  · intro mo da yr hm hmd hd hdd hy hyd
    have h := searchFrom_of_head (dateAt_shape hm hmd hd hdd hy hyd)
    unfold parseDate
    erw [h]
    simp
  · intro s
    unfold parseDate
    rw [Option.map_eq_none']
    exact searchFrom_eq_none_iff

/-- Witness for the date normalizer at `3/4/2024`. -/
theorem date_normalizer_witness :
    parseDate (String.mk ("3".data ++ '/' :: ("4".data ++ '/' :: "2024".data))) =
      some (String.mk ("2024".data ++ '-' :: (pad2 "3".data ++ '-' :: pad2 "4".data))) :=
  date_normalizer.1 "3".data "4".data "2024".data (Or.inl (by decide)) (by decide)
    (Or.inl (by decide)) (by decide) (by decide) (by decide)

end Permit
